import Mathlib

/-!
The package `frame/element` of numgo: dynamically typed cells, coercion,
dispatch, equality.

A shallow embedding of `src/frame/element/element.go`.

* `F64` is the value model of Go's `float64` (IEEE 754 binary64, round to
  nearest even): the arithmetic the operator table and `Eq` perform.
* `Value` is the closed set of dynamic types an `interface{}` payload takes in
  this package; `Kind` is the part of `reflect.Kind` they map to.
* A Go call either returns or panics; `Outcome` records which.  A pointer
  receiver that mutates its cell (`AsFloat`) returns the cell's new state
  next to its `error`.
-/

set_option exponentiation.threshold 4096
set_option maxRecDepth 100000

namespace element

/-! ## Go's `float64` -/

/-- A `float64` value: NaN, a signed infinity, or the finite value
`(-1)^neg * m * 2^e`.  The canonical finite forms are those of the bit
encoding: `m < 2^53`, `-1074 ≤ e ≤ 971`, and `m < 2^52` only when
`e = -1074` (zero and the subnormals). -/
inductive F64 where
  | nan
  | inf (neg : Bool)
  | fin (neg : Bool) (m : Nat) (e : Int)
  deriving DecidableEq, Repr

namespace F64

/-- The loop of `log2`, bounded by `fuel` halvings. -/
def log2Loop : Nat → Nat → Nat
  | 0, _ => 0
  | fuel + 1, n => if 2 ≤ n then log2Loop fuel (n / 2) + 1 else 0

/-- The position of the leading bit of `n`: `2^(log2 n) ≤ n < 2^(log2 n + 1)`
for `n > 0`. -/
def log2 (n : Nat) : Nat := log2Loop n n

/-- Numerator and denominator of `(n / d) / 2^e`. -/
def scale (n d : Nat) (e : Int) : Nat × Nat :=
  if 0 ≤ e then (n, d * 2 ^ e.toNat) else (n * 2 ^ (-e).toNat, d)

/-- The `float64` nearest to `(-1)^neg * n / d`, ties to even, overflowing to
an infinity and underflowing through the subnormals to a signed zero. -/
def round (neg : Bool) (n d : Nat) : F64 :=
  if n = 0 then fin neg 0 (-1074) else
  let e0 : Int := (log2 n : Int) - (log2 d : Int) - 52
  let s0 := scale n d e0
  let e1 : Int := if s0.1 < 2 ^ 52 * s0.2 then e0 - 1 else e0
  let e : Int := max e1 (-1074)
  let s := scale n d e
  let q := s.1 / s.2
  let r := s.1 % s.2
  let m := if s.2 < 2 * r ∨ (2 * r = s.2 ∧ q % 2 = 1) then q + 1 else q
  let me : Nat × Int := if m = 2 ^ 53 then (2 ^ 52, e + 1) else (m, e)
  if 971 < me.2 then inf neg else fin neg me.1 me.2

/-- The `float64` nearest to `(-1)^neg * n * 2^e`. -/
def ofDyadic (neg : Bool) (n : Nat) (e : Int) : F64 :=
  if 0 ≤ e then round neg (n * 2 ^ e.toNat) 1 else round neg n (2 ^ (-e).toNat)

/-- The conversion `float64(i)` of an integer of any width. -/
def ofInt (i : Int) : F64 := round (decide (i < 0)) i.natAbs 1

/-- The conversion `float64(n)` of an unsigned integer of any width. -/
def ofNat (n : Nat) : F64 := round false n 1

/-- The signed integer `(-1)^neg * n`. -/
def signed (neg : Bool) (n : Nat) : Int := if neg then -(n : Int) else (n : Int)

/-- Unary minus. -/
def neg : F64 → F64
  | nan => nan
  | inf s => inf (!s)
  | fin s m e => fin (!s) m e

/-- Go's `math.Abs`: clears the sign bit. -/
def abs : F64 → F64
  | nan => nan
  | inf _ => inf false
  | fin _ m e => fin false m e

/-- IEEE addition, `a + b`. -/
def add : F64 → F64 → F64
  | nan, _ => nan
  | _, nan => nan
  | inf s, inf t => if s = t then inf s else nan
  | inf s, fin _ _ _ => inf s
  | fin _ _ _, inf t => inf t
  | fin s m e, fin t k f =>
    let g := min e f
    let c : Int := signed s (m * 2 ^ (e - g).toNat) + signed t (k * 2 ^ (f - g).toNat)
    if c = 0 then fin (s && t) 0 (-1074) else ofDyadic (decide (c < 0)) c.natAbs g

/-- IEEE subtraction, `a - b`. -/
def sub (a b : F64) : F64 := add a (neg b)

/-- IEEE multiplication, `a * b`. -/
def mul : F64 → F64 → F64
  | nan, _ => nan
  | _, nan => nan
  | inf s, inf t => inf (xor s t)
  | inf s, fin t k _ => if k = 0 then nan else inf (xor s t)
  | fin s m _, inf t => if m = 0 then nan else inf (xor s t)
  | fin s m e, fin t k f => ofDyadic (xor s t) (m * k) (e + f)

/-- IEEE division, `a / b`: a zero divisor gives an infinity or NaN. -/
def div : F64 → F64 → F64
  | nan, _ => nan
  | _, nan => nan
  | inf _, inf _ => nan
  | inf s, fin t _ _ => inf (xor s t)
  | fin s _ _, inf t => fin (xor s t) 0 (-1074)
  | fin s m e, fin t k f =>
    if k = 0 then (if m = 0 then nan else inf (xor s t))
    else if 0 ≤ e - f then round (xor s t) (m * 2 ^ (e - f).toNat) k
    else round (xor s t) m (k * 2 ^ (f - e).toNat)

/-- Go's `math.Mod(x, y)`: the remainder of the truncated division, with the
sign of `x`; NaN when `y` is zero or `x` is infinite, `x` when `y` is infinite. -/
def mod : F64 → F64 → F64
  | nan, _ => nan
  | _, nan => nan
  | inf _, _ => nan
  | fin s m e, inf _ => fin s m e
  | fin s m e, fin _ k f =>
    if k = 0 then nan
    else
      let g := min e f
      ofDyadic s ((m * 2 ^ (e - g).toNat) % (k * 2 ^ (f - g).toNat)) g

/-- The comparison `a < b`; false when either side is NaN. -/
def lt : F64 → F64 → Bool
  | nan, _ => false
  | _, nan => false
  | inf s, inf t => s && !t
  | inf s, fin _ _ _ => s
  | fin _ _ _, inf t => !t
  | fin s m e, fin t k f =>
    let g := min e f
    decide (signed s (m * 2 ^ (e - g).toNat) < signed t (k * 2 ^ (f - g).toNat))

/-- The comparison `a <= b`; false when either side is NaN. -/
def le : F64 → F64 → Bool
  | nan, _ => false
  | _, nan => false
  | inf s, inf t => s || !t
  | inf s, fin _ _ _ => s
  | fin _ _ _, inf t => !t
  | fin s m e, fin t k f =>
    let g := min e f
    decide (signed s (m * 2 ^ (e - g).toNat) ≤ signed t (k * 2 ^ (f - g).toNat))

/-- The comparison `a > b`. -/
def gt (a b : F64) : Bool := lt b a

/-- The comparison `a >= b`. -/
def ge (a b : F64) : Bool := le b a

/-- The comparison `a == b`: NaN equals nothing, the two zeros are equal. -/
def eq : F64 → F64 → Bool
  | nan, _ => false
  | _, nan => false
  | inf s, inf t => decide (s = t)
  | inf _, fin _ _ _ => false
  | fin _ _ _, inf _ => false
  | fin s m e, fin t k f =>
    let g := min e f
    decide (signed s (m * 2 ^ (e - g).toNat) = signed t (k * 2 ^ (f - g).toNat))

/-- The constant `1e-10` as a `float64`. -/
def tol : F64 := round false 1 (10 ^ 10)

end F64

/-! ## Cells -/

/-- The part of `reflect.Kind` that the payloads of this package map to. -/
inductive Kind where
  | Invalid | Bool | Int | Int8 | Int16 | Int32 | Int64
  | Uint8 | Uint16 | Uint32 | Uint64 | Float32 | Float64 | String
  deriving DecidableEq, Repr

/-- The payload of a cell, Go's `interface{}` restricted to the dynamic types
the package handles: the nil interface, `bool`, the eleven numeric types of
the type switch in `AsFloat`, and `string`.  A `float32` payload is carried as
the `float64` it widens to, which loses nothing: `float64(f)` is exact and
`==` on `float32` agrees with `==` on the widened values. -/
inductive Value where
  | nil
  | bool (b : Bool)
  | uint8 (n : Nat)
  | int8 (i : Int)
  | uint16 (n : Nat)
  | int16 (i : Int)
  | uint32 (n : Nat)
  | int32 (i : Int)
  | uint64 (n : Nat)
  | int64 (i : Int)
  | int (i : Int)
  | float32 (f : F64)
  | float64 (f : F64)
  | string (s : String)
  deriving DecidableEq, Repr

/-- The cell: `type Element struct { Val interface{}; Type reflect.Kind }`. -/
structure Element where
  Val : Value
  Typ : Kind
  deriving DecidableEq, Repr

/-- The result of a Go call: it returns, or it panics with a message. -/
inductive Outcome (α : Type) where
  | ret (val : α)
  | panic (msg : String)
  deriving DecidableEq, Repr

/-- Sequencing: a panic in the first step is the panic of the whole. -/
def Outcome.bind {α β : Type} : Outcome α → (α → Outcome β) → Outcome β
  | .ret a, k => k a
  | .panic msg, _ => .panic msg

/-- What a function of signature `(Element, error)` hands back; a nil `error`
is `none`, and `errors.New msg` is `some msg`. -/
abbrev Result := Outcome (Element × Option String)

/-- The name of the dynamic type, as the runtime prints it. -/
def Value.typeName : Value → String
  | .nil => "nil"
  | .bool _ => "bool"
  | .uint8 _ => "uint8"
  | .int8 _ => "int8"
  | .uint16 _ => "uint16"
  | .int16 _ => "int16"
  | .uint32 _ => "uint32"
  | .int32 _ => "int32"
  | .uint64 _ => "uint64"
  | .int64 _ => "int64"
  | .int _ => "int"
  | .float32 _ => "float32"
  | .float64 _ => "float64"
  | .string _ => "string"

/-- `reflect.TypeOf(value).Kind()` for a non-nil payload.  `New` never asks it
of the nil interface; the zero `Kind` stands there. -/
def Value.kind : Value → Kind
  | .nil => .Invalid
  | .bool _ => .Bool
  | .uint8 _ => .Uint8
  | .int8 _ => .Int8
  | .uint16 _ => .Uint16
  | .int16 _ => .Int16
  | .uint32 _ => .Uint32
  | .int32 _ => .Int32
  | .uint64 _ => .Uint64
  | .int64 _ => .Int64
  | .int _ => .Int
  | .float32 _ => .Float32
  | .float64 _ => .Float64
  | .string _ => .String

/-- The panic of a failed single-value type assertion `v.(want)`. -/
def conversionPanic (v : Value) (want : String) : String :=
  "interface conversion: interface \x7b\x7d is " ++ v.typeName ++ ", not " ++ want

/-- The type assertion `v.(uint8)`. -/
def assertUint8 : Value → Outcome Nat
  | .uint8 n => .ret n
  | v => .panic (conversionPanic v "uint8")

/-- The type assertion `v.(uint16)`. -/
def assertUint16 : Value → Outcome Nat
  | .uint16 n => .ret n
  | v => .panic (conversionPanic v "uint16")

/-- The type assertion `v.(int16)`. -/
def assertInt16 : Value → Outcome Int
  | .int16 i => .ret i
  | v => .panic (conversionPanic v "int16")

/-- The type assertion `v.(uint32)`. -/
def assertUint32 : Value → Outcome Nat
  | .uint32 n => .ret n
  | v => .panic (conversionPanic v "uint32")

/-- The type assertion `v.(int32)`. -/
def assertInt32 : Value → Outcome Int
  | .int32 i => .ret i
  | v => .panic (conversionPanic v "int32")

/-- The type assertion `v.(uint64)`. -/
def assertUint64 : Value → Outcome Nat
  | .uint64 n => .ret n
  | v => .panic (conversionPanic v "uint64")

/-- The type assertion `v.(int64)`. -/
def assertInt64 : Value → Outcome Int
  | .int64 i => .ret i
  | v => .panic (conversionPanic v "int64")

/-- The type assertion `v.(int)`. -/
def assertInt : Value → Outcome Int
  | .int i => .ret i
  | v => .panic (conversionPanic v "int")

/-- The type assertion `v.(float32)`. -/
def assertFloat32 : Value → Outcome F64
  | .float32 f => .ret f
  | v => .panic (conversionPanic v "float32")

/-- The type assertion `v.(float64)`. -/
def assertFloat64 : Value → Outcome F64
  | .float64 f => .ret f
  | v => .panic (conversionPanic v "float64")

/-- `func New(value interface{}) Element`. -/
def New (value : Value) : Element :=
  if value = Value.nil then Element.mk value Kind.Invalid
  else Element.mk value value.kind

/-- `var emptyElement = New(nil)`. -/
def emptyElement : Element := New Value.nil

/-- The error `AsFloat` returns from the default branch of its type switch. -/
def arithmeticError : String := "ArithmeticError: can only add numeric types"

/-- The tail of `AsFloat` after a case has computed `f`: `e.Val = f`,
`e.Type = reflect.Float64`, `return nil`. -/
def AsFloat.store (f : F64) : Result :=
  .ret (Element.mk (Value.float64 f) Kind.Float64, none)

/-- `func (e *Element) AsFloat() error`: the cell after the call and the
returned error.  Each case of the type switch is the source's own type
assertion and conversion, the `int8` case asserting `uint8` as written. -/
def AsFloat (e : Element) : Result :=
  match e.Val with
  | .uint8 _ => (assertUint8 e.Val).bind fun n => AsFloat.store (F64.ofNat n)
  | .int8 _ => (assertUint8 e.Val).bind fun n => AsFloat.store (F64.ofNat n)
  | .uint16 _ => (assertUint16 e.Val).bind fun n => AsFloat.store (F64.ofNat n)
  | .int16 _ => (assertInt16 e.Val).bind fun i => AsFloat.store (F64.ofInt i)
  | .uint32 _ => (assertUint32 e.Val).bind fun n => AsFloat.store (F64.ofNat n)
  | .int32 _ => (assertInt32 e.Val).bind fun i => AsFloat.store (F64.ofInt i)
  | .uint64 _ => (assertUint64 e.Val).bind fun n => AsFloat.store (F64.ofNat n)
  | .int64 _ => (assertInt64 e.Val).bind fun i => AsFloat.store (F64.ofInt i)
  | .int _ => (assertInt e.Val).bind fun i => AsFloat.store (F64.ofInt i)
  | .float32 _ => (assertFloat32 e.Val).bind fun f => AsFloat.store f
  | .float64 _ => (assertFloat64 e.Val).bind fun f => AsFloat.store f
  | _ => .ret (e, some arithmeticError)

/-- An entry of the operator table: asserts both payloads to `float64`, left
first, and wraps the result of `f` in a new cell with a nil error. -/
def Ops.entry (f : F64 → F64 → Value) (a b : Element) : Result :=
  (assertFloat64 a.Val).bind fun x =>
    (assertFloat64 b.Val).bind fun y => .ret (New (f x y), none)

/-- `var Ops = map[string]func(Element, Element) (Element, error)`: the nine
entries of the map literal; any other key yields the nil function. -/
def Ops : String → Option (Element → Element → Result)
  | "+" => some (Ops.entry fun x y => Value.float64 (F64.add x y))
  | "-" => some (Ops.entry fun x y => Value.float64 (F64.sub x y))
  | "*" => some (Ops.entry fun x y => Value.float64 (F64.mul x y))
  | "/" => some (Ops.entry fun x y => Value.float64 (F64.div x y))
  | "%" => some (Ops.entry fun x y => Value.float64 (F64.mod x y))
  | "<" => some (Ops.entry fun x y => Value.bool (F64.lt x y))
  | "<=" => some (Ops.entry fun x y => Value.bool (F64.le x y))
  | ">" => some (Ops.entry fun x y => Value.bool (F64.gt x y))
  | ">=" => some (Ops.entry fun x y => Value.bool (F64.ge x y))
  | _ => none

/-- The panic of calling a nil function value. -/
def nilCallPanic : String :=
  "runtime error: invalid memory address or nil pointer dereference"

/-- `func Op(e, x Element, op string) (Element, error)`. -/
def Op (e x : Element) (op : String) : Result :=
  (AsFloat e).bind fun p =>
    if p.2 ≠ none ∧ op ≠ "==" then .ret (emptyElement, p.2)
    else (AsFloat x).bind fun q =>
      if q.2 ≠ none ∧ op ≠ "==" then .ret (emptyElement, q.2)
      else
        match Ops op with
        | some f => f p.1 q.1
        | none => .panic nilCallPanic

/-- `reflect.DeepEqual` on two payloads: the same dynamic type and `==` on
the values (so NaN differs from itself and the two zeros are equal). -/
def Value.deepEqual : Value → Value → Bool
  | .nil, .nil => true
  | .bool a, .bool b => decide (a = b)
  | .uint8 a, .uint8 b => decide (a = b)
  | .int8 a, .int8 b => decide (a = b)
  | .uint16 a, .uint16 b => decide (a = b)
  | .int16 a, .int16 b => decide (a = b)
  | .uint32 a, .uint32 b => decide (a = b)
  | .int32 a, .int32 b => decide (a = b)
  | .uint64 a, .uint64 b => decide (a = b)
  | .int64 a, .int64 b => decide (a = b)
  | .int a, .int b => decide (a = b)
  | .float32 a, .float32 b => F64.eq a b
  | .float64 a, .float64 b => F64.eq a b
  | .string a, .string b => decide (a = b)
  | _, _ => false

/-- `reflect.DeepEqual(e, x)` on two cells: field by field. -/
def DeepEqual (e x : Element) : Bool :=
  Value.deepEqual e.Val x.Val && decide (e.Typ = x.Typ)

/-- `func Eq(e, x Element) (Element, error)`.  The two `AsFloat` calls run on
the local copies and their errors are dropped; the payloads are then asserted
to `float64`. -/
def Eq (e x : Element) : Result :=
  let cFalse := New (Value.bool false)
  let cTrue := New (Value.bool true)
  if decide (e.Val = Value.nil) ≠ decide (x.Val = Value.nil) then .ret (cFalse, none)
  else if !DeepEqual e x then
    if e.Typ = Kind.Float32 ∨ e.Typ = Kind.Float64 ∨ x.Typ = Kind.Float32 ∨ x.Typ = Kind.Float64 then
      (AsFloat e).bind fun p =>
        (AsFloat x).bind fun q =>
          (assertFloat64 p.1.Val).bind fun a =>
            (assertFloat64 q.1.Val).bind fun b =>
              if F64.gt (F64.abs (F64.sub a b)) F64.tol then .ret (cFalse, none)
              else .ret (cTrue, none)
    else .ret (cFalse, none)
  else .ret (cTrue, none)

/-- `func Add(e, x Element) (Element, error)`. -/
def Add (e x : Element) : Result := Op e x "+"

/-- `func Diff(e, x Element) (Element, error)`. -/
def Diff (e x : Element) : Result := Op e x "-"

/-- `func Prod(e, x Element) (Element, error)`. -/
def Prod (e x : Element) : Result := Op e x "*"

/-- `func Quot(e, x Element) (Element, error)`. -/
def Quot (e x : Element) : Result := Op e x "/"

/-- `func Mod(e, x Element) (Element, error)`. -/
def Mod (e x : Element) : Result := Op e x "%"

/-- `func Le(e, x Element) (Element, error)`. -/
def Le (e x : Element) : Result := Op e x "<"

/-- `func Leq(e, x Element) (Element, error)`. -/
def Leq (e x : Element) : Result := Op e x "<="

/-- `func Ge(e, x Element) (Element, error)`. -/
def Ge (e x : Element) : Result := Op e x ">"

/-- `func Geq(e, x Element) (Element, error)`. -/
def Geq (e x : Element) : Result := Op e x ">="

/-! ## Vocabulary of the statements -/

/-- The payloads `AsFloat` converts without panicking: the ten numeric types
whose case asserts the type it switched on. -/
def Value.coercible : Value → Bool
  | .uint8 _ | .uint16 _ | .int16 _ | .uint32 _ | .int32 _ | .uint64 _
  | .int64 _ | .int _ | .float32 _ | .float64 _ => true
  | _ => false

/-- The `float64` that `AsFloat` stores for a payload it converts. -/
def Value.toF64 : Value → F64
  | .uint8 n | .uint16 n | .uint32 n | .uint64 n => F64.ofNat n
  | .int16 i | .int32 i | .int64 i | .int i => F64.ofInt i
  | .float32 f | .float64 f => f
  | _ => F64.nan

/-- The payloads on which `AsFloat` returns its error. -/
def Value.nonNumeric : Value → Bool
  | .nil | .bool _ | .string _ => true
  | _ => false

/-- The payloads of float kind. -/
def Value.isFloat : Value → Bool
  | .float32 _ | .float64 _ => true
  | _ => false

/-- The payloads that are not nil and that `AsFloat` leaves unconverted, by
its error (`bool`, `string`) or by its panic (`int8`). -/
def Value.blocks : Value → Bool
  | .bool _ | .string _ | .int8 _ => true
  | _ => false

/-- The kind tags of float kind: `reflect.Float32` and `reflect.Float64`. -/
def floatKind : Kind → Bool
  | .Float32 | .Float64 => true
  | _ => false

/-- The outcome of `Eq` on two float cells holding `a` and `b`, as the
tolerance rule states it: true when `|a - b| <= 1e-10`, false otherwise. -/
def toleranceRule (a b : F64) : Result :=
  .ret (New (Value.bool (F64.le (F64.abs (F64.sub a b)) F64.tol)), none)

/-- The outcome of `Eq` on two float cells holding `a` and `b`: true when
`a - b` is NaN or `|a - b| <= 1e-10`, false otherwise. -/
def toleranceOutcome (a b : F64) : Result :=
  .ret (New (Value.bool
    (decide (F64.sub a b = F64.nan) || F64.le (F64.abs (F64.sub a b)) F64.tol)), none)

/-- The exact rational value of a finite `float64`; none for NaN and the
infinities. -/
def F64.toRat : F64 → Option ℚ
  | .fin s m e => some ((F64.signed s m : ℚ) * (2 : ℚ) ^ e)
  | _ => none

/-- The magnitude `|v|` of an integer payload (zero for the other payloads). -/
def Value.magnitude : Value → Nat
  | .uint8 n | .uint16 n | .uint32 n | .uint64 n => n
  | .int8 i | .int16 i | .int32 i | .int64 i | .int i => i.natAbs
  | _ => 0

/-- The mathematically exact value of a numeric payload; none for a payload
that is not numeric and for NaN and the infinities. -/
def Value.exact : Value → Option ℚ
  | .uint8 n | .uint16 n | .uint32 n | .uint64 n => some (n : ℚ)
  | .int8 i | .int16 i | .int32 i | .int64 i | .int i => some (i : ℚ)
  | .float32 f | .float64 f => f.toRat
  | _ => none

/-- A cell is well tagged when its kind tag is the kind of its payload, and
is `Invalid` exactly when the payload is nil. -/
def wellTagged (c : Element) : Prop :=
  (c.Val ≠ Value.nil → c.Typ = c.Val.kind) ∧ (c.Typ = Kind.Invalid ↔ c.Val = Value.nil)

/-- A finite `float64` in a form of the bit encoding: mantissa below `2^53`,
exponent from `-1074` to `971`. -/
def F64.bounded : F64 → Prop
  | .fin _ m e => m < 2 ^ 53 ∧ -1074 ≤ e ∧ e ≤ 971
  | _ => False

/-- Two payloads are the same value: the same dynamic type and equal under
Go's `==`.  That is plain equality of the payloads, except between two floats
of one type, where NaN differs from itself and the two zeros are equal. -/
def sameValue : Value → Value → Bool
  | .float32 a, .float32 b => F64.eq a b
  | .float64 a, .float64 b => F64.eq a b
  | v, w => decide (v = w)

/-! ## Basic facts -/

theorem New_eq (v : Value) : New v = Element.mk v v.kind := by
  cases v <;> rfl

theorem AsFloat_coercible (e : Element) (h : e.Val.coercible = true) :
    AsFloat e = .ret (Element.mk (Value.float64 e.Val.toF64) Kind.Float64, none) := by
  obtain ⟨v, t⟩ := e
  cases v <;> first | rfl | simp [Value.coercible, Value.nonNumeric] at h

theorem AsFloat_nonNumeric (e : Element) (h : e.Val.nonNumeric = true) :
    AsFloat e = .ret (e, some arithmeticError) := by
  obtain ⟨v, t⟩ := e
  cases v <;> first | rfl | simp [Value.coercible, Value.nonNumeric] at h

theorem AsFloat_int8 (i : Int) (t : Kind) :
    AsFloat (Element.mk (Value.int8 i) t)
      = .panic "interface conversion: interface \x7b\x7d is int8, not uint8" := rfl

theorem Value.trichotomy (v : Value) :
    v.coercible = true ∨ v.nonNumeric = true ∨ ∃ i, v = Value.int8 i := by
  cases v <;> simp [Value.coercible, Value.nonNumeric]

theorem Ops_eq_symbol : Ops "==" = none := rfl

/-! ## Facts about the float comparisons -/

theorem F64.tol_eq : F64.tol = F64.fin false 7737125245533627 (-86) := by decide

theorem F64.signed_not (s : Bool) (n : Nat) : F64.signed (!s) n = -F64.signed s n := by
  cases s <;> simp [F64.signed]

/-- Where `a == b` holds, `|a - b|` is NaN (equal infinities) or `+0`. -/
theorem F64.abs_sub_of_eq (a b : F64) (h : F64.eq a b = true) :
    F64.abs (F64.sub a b) = F64.nan ∨ F64.abs (F64.sub a b) = F64.fin false 0 (-1074) := by
  cases a with
  | nan => simp [F64.eq] at h
  | inf s =>
    cases b with
    | nan => simp [F64.eq] at h
    | inf t =>
      have hst : s = t := by simpa [F64.eq] using h
      subst hst
      left
      cases s <;> rfl
    | fin t k f => simp [F64.eq] at h
  | fin s m e =>
    cases b with
    | nan => simp [F64.eq] at h
    | inf t => simp [F64.eq] at h
    | fin t k f =>
      right
      have hc : F64.signed s (m * 2 ^ (e - min e f).toNat)
          = F64.signed t (k * 2 ^ (f - min e f).toNat) := by simpa [F64.eq] using h
      simp [F64.sub, F64.neg, F64.add, F64.signed_not, hc, F64.abs]

/-- Where `a == b` holds, `|a - b| > 1e-10` does not. -/
theorem F64.gt_tol_of_eq (a b : F64) (h : F64.eq a b = true) :
    F64.gt (F64.abs (F64.sub a b)) F64.tol = false := by
  rcases F64.abs_sub_of_eq a b h with h0 | h0 <;> rw [h0] <;> decide

/-- Away from NaN, `x <= y` is the negation of `y < x`. -/
theorem F64.le_eq_not_lt (x y : F64) (hx : x ≠ F64.nan) (hy : y ≠ F64.nan) :
    F64.le x y = !F64.lt y x := by
  cases x with
  | nan => exact absurd rfl hx
  | inf s =>
    cases y with
    | nan => exact absurd rfl hy
    | inf t => cases s <;> cases t <;> rfl
    | fin t k f => cases s <;> rfl
  | fin s m e =>
    cases y with
    | nan => exact absurd rfl hy
    | inf t => cases t <;> rfl
    | fin t k f =>
      simp only [F64.le, F64.lt, min_comm f e]
      by_cases hle : F64.signed s (m * 2 ^ (e - min e f).toNat)
          ≤ F64.signed t (k * 2 ^ (f - min e f).toNat)
      · simp [hle, not_lt.mpr hle]
      · simp [hle, not_le.mp hle]

theorem F64.abs_eq_nan (x : F64) : F64.abs x = F64.nan ↔ x = F64.nan := by
  cases x <;> simp [F64.abs]

/-- The tolerance test of `Eq`, read as a bound: `|a - b| > 1e-10` fails when
`a - b` is NaN and otherwise exactly when `|a - b| <= 1e-10`. -/
theorem F64.not_gt_tol (a b : F64) :
    (!F64.gt (F64.abs (F64.sub a b)) F64.tol)
      = (decide (F64.sub a b = F64.nan) || F64.le (F64.abs (F64.sub a b)) F64.tol) := by
  by_cases h : F64.sub a b = F64.nan
  · simp [h, F64.abs, F64.gt, F64.lt, F64.tol_eq]
  · have h1 : F64.abs (F64.sub a b) ≠ F64.nan := fun hh => h ((F64.abs_eq_nan _).mp hh)
    have h2 : F64.tol ≠ F64.nan := by decide
    rw [F64.le_eq_not_lt _ _ h1 h2]
    simp [h, F64.gt]

/-- No value is further than `1e-10` from itself, NaN included. -/
theorem F64.gt_tol_self (a : F64) : F64.gt (F64.abs (F64.sub a a)) F64.tol = false := by
  cases a with
  | nan => rfl
  | inf s => exact F64.gt_tol_of_eq _ _ (by simp [F64.eq])
  | fin s m e => exact F64.gt_tol_of_eq _ _ (by simp [F64.eq])

/-! ## Facts about the conversion of integers -/

theorem F64.log2Loop_spec (fuel : Nat) : ∀ n, 0 < n → n ≤ fuel →
    2 ^ F64.log2Loop fuel n ≤ n ∧ n < 2 ^ (F64.log2Loop fuel n + 1) := by
  induction fuel with
  | zero => intro n h0 h; omega
  | succ k ih =>
    intro n h0 h
    unfold F64.log2Loop
    by_cases h2 : 2 ≤ n
    · rw [if_pos h2]
      obtain ⟨h3, h4⟩ := ih (n / 2) (Nat.div_pos h2 (by norm_num)) (by omega)
      constructor
      · rw [pow_succ]; omega
      · rw [pow_succ]; omega
    · rw [if_neg h2]
      have h1 : n = 1 := by omega
      subst h1
      norm_num

theorem F64.log2_spec (n : Nat) (h : 0 < n) :
    2 ^ F64.log2 n ≤ n ∧ n < 2 ^ (F64.log2 n + 1) :=
  F64.log2Loop_spec n n h le_rfl

theorem F64.log2_le_52 (n : Nat) (h0 : 0 < n) (h : n < 2 ^ 53) : F64.log2 n ≤ 52 := by
  obtain ⟨hlo, _⟩ := F64.log2_spec n h0
  by_contra hc
  have h53 : 2 ^ 53 ≤ 2 ^ F64.log2 n := Nat.pow_le_pow_right (by norm_num) (by omega)
  omega

/-- Below `2^53` the conversion only shifts the integer up to 53 bits. -/
theorem F64.round_small (s : Bool) (n : Nat) (h0 : 0 < n) (h : n < 2 ^ 53) :
    F64.round s n 1 = F64.fin s (n * 2 ^ (52 - F64.log2 n)) ((F64.log2 n : Int) - 52) := by
  obtain ⟨hlo, hhi⟩ := F64.log2_spec n h0
  have hL : F64.log2 n ≤ 52 := F64.log2_le_52 n h0 h
  have hone : F64.log2 1 = 0 := rfl
  have hsc : F64.scale n 1 ((F64.log2 n : Int) - 52) = (n * 2 ^ (52 - F64.log2 n), 1) := by
    unfold F64.scale
    by_cases he : (0 : Int) ≤ (F64.log2 n : Int) - 52
    · have h52 : F64.log2 n = 52 := by omega
      rw [if_pos he, h52]; norm_num
    · rw [if_neg he]
      have hsh : (-((F64.log2 n : Int) - 52)).toNat = 52 - F64.log2 n := by omega
      rw [hsh]
  have hN1 : 2 ^ 52 ≤ n * 2 ^ (52 - F64.log2 n) := by
    calc 2 ^ 52 = 2 ^ F64.log2 n * 2 ^ (52 - F64.log2 n) := by
          rw [← pow_add]; congr 1; omega
      _ ≤ n * 2 ^ (52 - F64.log2 n) := Nat.mul_le_mul_right _ hlo
  have hN2 : n * 2 ^ (52 - F64.log2 n) < 2 ^ 53 := by
    calc n * 2 ^ (52 - F64.log2 n) < 2 ^ (F64.log2 n + 1) * 2 ^ (52 - F64.log2 n) :=
          Nat.mul_lt_mul_of_pos_right hhi (by positivity)
      _ = 2 ^ 53 := by rw [← pow_add]; congr 1; omega
  have hmax : max ((F64.log2 n : Int) - 52) (-1074) = (F64.log2 n : Int) - 52 := by
    apply max_eq_left; omega
  unfold F64.round
  rw [if_neg (by omega : ¬ n = 0)]
  simp only [hone, Nat.cast_zero, sub_zero, hsc, mul_one]
  rw [if_neg (by omega : ¬ n * 2 ^ (52 - F64.log2 n) < 2 ^ 52)]
  simp only [hmax, hsc, Nat.div_one, Nat.mod_one, mul_zero]
  have hc1 : ¬ (1 < 0 ∨ 0 = 1 ∧ n * 2 ^ (52 - F64.log2 n) % 2 = 1) := by omega
  simp only [if_neg hc1, if_neg (Nat.ne_of_lt hN2)]
  rw [if_neg (by omega)]

/-- Up to `2^53` the conversion of an integer is exact. -/
theorem F64.round_exact (s : Bool) (n : Nat) (h : n ≤ 2 ^ 53) :
    (F64.round s n 1).toRat = some (F64.signed s n : ℚ) := by
  rcases Nat.eq_zero_or_pos n with h0 | h0
  · subst h0
    cases s <;> simp [F64.round, F64.toRat, F64.signed]
  · rcases Nat.lt_or_ge n (2 ^ 53) with hlt | hge
    · have hL : F64.log2 n ≤ 52 := F64.log2_le_52 n h0 hlt
      rw [F64.round_small s n h0 hlt]
      have hz : ((2 : ℚ) ^ (52 - F64.log2 n)) * (2 : ℚ) ^ ((F64.log2 n : Int) - 52) = 1 := by
        rw [← zpow_natCast, ← zpow_add₀ (by norm_num : (2 : ℚ) ≠ 0)]
        have hsum : ((52 - F64.log2 n : ℕ) : ℤ) + ((F64.log2 n : Int) - 52) = 0 := by omega
        rw [hsum, zpow_zero]
      cases s <;> simp only [F64.toRat, F64.signed] <;> push_cast <;>
        simp [mul_assoc, hz]
    · have h53 : n = 2 ^ 53 := by omega
      subst h53
      have hr : F64.round s (2 ^ 53) 1 = F64.fin s (2 ^ 52) 1 := by cases s <;> decide
      rw [hr]
      cases s <;> simp only [F64.toRat, F64.signed] <;> norm_num

theorem F64.ofNat_exact (n : Nat) (h : n ≤ 2 ^ 53) : (F64.ofNat n).toRat = some (n : ℚ) := by
  simpa [F64.ofNat, F64.signed] using F64.round_exact false n h

theorem F64.ofInt_exact (i : Int) (h : i.natAbs ≤ 2 ^ 53) :
    (F64.ofInt i).toRat = some (i : ℚ) := by
  rw [F64.ofInt, F64.round_exact (decide (i < 0)) i.natAbs h]
  by_cases hi : i < 0
  · simp only [F64.signed, hi, decide_True, if_true]
    congr 1
    have habs : ((i.natAbs : Int)) = -i := by omega
    have h2 : ((i.natAbs : Int) : ℚ) = ((-i : Int) : ℚ) := by rw [habs]
    push_cast at h2 ⊢
    rw [h2]; ring
  · simp only [F64.signed, hi, decide_False]
    congr 1
    have habs : ((i.natAbs : Int)) = i := by omega
    have h2 : ((i.natAbs : Int) : ℚ) = ((i : Int) : ℚ) := by rw [habs]
    push_cast at h2 ⊢
    simpa using h2

/-! ## Facts about exact float arithmetic -/

theorem F64.scale_pos (n d : Nat) (e : Int) (hd : 0 < d) : 0 < (F64.scale n d e).2 := by
  unfold F64.scale
  split_ifs
  · exact Nat.mul_pos hd (by positivity)
  · exact hd

/-- The pair `scale n d e` is the fraction `(n / d) / 2^e`. -/
theorem F64.scale_val (n d : Nat) (e : Int) (hd : 0 < d) :
    ((F64.scale n d e).1 : ℚ) = (n : ℚ) / d * ((2 : ℚ) ^ e)⁻¹ * ((F64.scale n d e).2 : ℚ) := by
  have hd0 : (d : ℚ) ≠ 0 := by exact_mod_cast hd.ne'
  unfold F64.scale
  split_ifs with he
  · have h2 : (2 : ℚ) ^ e = (2 : ℚ) ^ e.toNat := by
      rw [← zpow_natCast, Int.toNat_of_nonneg he]
    simp only [Nat.cast_mul, Nat.cast_pow, Nat.cast_ofNat, h2]
    field_simp
  · have hneg : e = -((-e).toNat : Int) := by omega
    have h2 : ((2 : ℚ) ^ e)⁻¹ = (2 : ℚ) ^ (-e).toNat := by
      rw [← zpow_natCast, ← zpow_neg]
      congr 1
      omega
    simp only [Nat.cast_mul, Nat.cast_pow, Nat.cast_ofNat, h2]
    field_simp

theorem F64.log2_spec_rat (n : Nat) (h : 0 < n) :
    (2 : ℚ) ^ (F64.log2 n : Int) ≤ n ∧ (n : ℚ) < (2 : ℚ) ^ ((F64.log2 n : Int) + 1) := by
  obtain ⟨h1, h2⟩ := F64.log2_spec n h
  constructor
  · rw [zpow_natCast]; exact_mod_cast h1
  · have : ((F64.log2 n : Int) + 1) = ((F64.log2 n + 1 : Nat) : Int) := by push_cast; ring
    rw [this, zpow_natCast]; exact_mod_cast h2
/-- A value `R * 2^g` with `R < 2^53`, `g ≥ -1074`, below `2^1024`, is a
`float64`: rounding returns it unchanged. -/
theorem F64.round_rep (neg : Bool) (n d R : Nat) (g : Int) (hn : 0 < n) (hd : 0 < d)
    (hR : R < 2 ^ 53) (hg : -1074 ≤ g) (hval : (n : ℚ) / d = R * (2 : ℚ) ^ g)
    (hov : (n : ℚ) / d < (2 : ℚ) ^ (1024 : ℤ)) :
    ∃ Q e, F64.round neg n d = F64.fin neg Q e ∧ (Q : ℚ) * (2 : ℚ) ^ e = R * (2 : ℚ) ^ g := by
  have h2 : (1 : ℚ) < 2 := by norm_num
  have h20 : (2 : ℚ) ≠ 0 := by norm_num
  have hnq : (0 : ℚ) < n := by exact_mod_cast hn
  have hdq : (0 : ℚ) < d := by exact_mod_cast hd
  have hx0 : (0 : ℚ) < (n : ℚ) / d := div_pos hnq hdq
  obtain ⟨hn1, hn2⟩ := F64.log2_spec_rat n hn
  obtain ⟨hd1, hd2⟩ := F64.log2_spec_rat d hd
  -- the bracket given by the two leading bits
  have hlo0 : (2 : ℚ) ^ ((F64.log2 n : Int) - (F64.log2 d : Int) - 52 + 51) ≤ (n : ℚ) / d := by
    rw [le_div_iff₀ hdq]
    have e1 : ((F64.log2 n : Int) - (F64.log2 d : Int) - 52 + 51)
        = (F64.log2 n : Int) - ((F64.log2 d : Int) + 1) := by ring
    rw [e1, zpow_sub₀ h20]
    calc (2 : ℚ) ^ (F64.log2 n : Int) / 2 ^ ((F64.log2 d : Int) + 1) * d
        ≤ (2 : ℚ) ^ (F64.log2 n : Int) / 2 ^ ((F64.log2 d : Int) + 1)
            * 2 ^ ((F64.log2 d : Int) + 1) :=
          mul_le_mul_of_nonneg_left hd2.le (div_nonneg (zpow_pos (by norm_num) _).le
            (zpow_pos (by norm_num) _).le)
      _ = (2 : ℚ) ^ (F64.log2 n : Int) := by
          field_simp
      _ ≤ n := hn1
  have hhi0 : (n : ℚ) / d < (2 : ℚ) ^ ((F64.log2 n : Int) - (F64.log2 d : Int) - 52 + 53) := by
    rw [div_lt_iff₀ hdq]
    have e1 : ((F64.log2 n : Int) - (F64.log2 d : Int) - 52 + 53)
        = ((F64.log2 n : Int) + 1) - (F64.log2 d : Int) := by ring
    rw [e1, zpow_sub₀ h20]
    calc (n : ℚ) < (2 : ℚ) ^ ((F64.log2 n : Int) + 1) := hn2
      _ = (2 : ℚ) ^ ((F64.log2 n : Int) + 1) / 2 ^ (F64.log2 d : Int) * 2 ^ (F64.log2 d : Int) := by
          field_simp
      _ ≤ (2 : ℚ) ^ ((F64.log2 n : Int) + 1) / 2 ^ (F64.log2 d : Int) * d :=
          mul_le_mul_of_nonneg_left hd1 (div_nonneg (zpow_pos (by norm_num) _).le
            (zpow_pos (by norm_num) _).le)
  -- the exponent that puts the quotient in [2^52, 2^53)
  obtain ⟨e1, he1, hlo, hhi⟩ : ∃ e1 : Int,
      (if (F64.scale n d ((F64.log2 n : Int) - (F64.log2 d : Int) - 52)).1
          < 2 ^ 52 * (F64.scale n d ((F64.log2 n : Int) - (F64.log2 d : Int) - 52)).2
        then (F64.log2 n : Int) - (F64.log2 d : Int) - 52 - 1
        else (F64.log2 n : Int) - (F64.log2 d : Int) - 52) = e1 ∧
      (2 : ℚ) ^ (e1 + 52) ≤ (n : ℚ) / d ∧ (n : ℚ) / d < (2 : ℚ) ^ (e1 + 53) := by
    generalize (F64.log2 n : Int) - (F64.log2 d : Int) - 52 = e0 at hlo0 hhi0 ⊢
    have hs2 := F64.scale_pos n d e0 hd
    have hs2q : (0 : ℚ) < ((F64.scale n d e0).2 : ℚ) := by exact_mod_cast hs2
    have hsv := F64.scale_val n d e0 hd
    have hiff : (F64.scale n d e0).1 < 2 ^ 52 * (F64.scale n d e0).2
        ↔ (n : ℚ) / d < (2 : ℚ) ^ (e0 + 52) := by
      have hc : (F64.scale n d e0).1 < 2 ^ 52 * (F64.scale n d e0).2
          ↔ ((F64.scale n d e0).1 : ℚ) < 2 ^ 52 * ((F64.scale n d e0).2 : ℚ) := by
        constructor
        · intro h; exact_mod_cast h
        · intro h; exact_mod_cast h
      rw [hc, hsv, mul_lt_mul_right hs2q, zpow_add₀ h20, ← div_eq_mul_inv,
        div_lt_iff₀ (zpow_pos (by norm_num) _)]
      constructor
      · intro h; rw [mul_comm]; exact_mod_cast h
      · intro h; rw [mul_comm] at h; exact_mod_cast h
    by_cases ht : (F64.scale n d e0).1 < 2 ^ 52 * (F64.scale n d e0).2
    · refine ⟨e0 - 1, if_pos ht, ?_, ?_⟩
      · have : e0 - 1 + 52 = e0 + 51 := by ring
        rw [this]; exact hlo0
      · have : e0 - 1 + 53 = e0 + 52 := by ring
        rw [this]; exact hiff.mp ht
    · refine ⟨e0, if_neg ht, ?_, hhi0⟩
      exact not_lt.mp (fun h => ht (hiff.mpr h))
  -- the final exponent
  have hxR : (n : ℚ) / d < (2 : ℚ) ^ (53 + g) := by
    rw [hval, zpow_add₀ h20]
    have : (R : ℚ) < 2 ^ (53 : ℤ) := by
      have hRq : (R : ℚ) < ((2 ^ 53 : Nat) : ℚ) := by exact_mod_cast hR
      have h5 : (((2 : Nat) ^ 53 : Nat) : ℚ) = (2 : ℚ) ^ (53 : ℤ) := by norm_num
      rw [h5] at hRq
      exact hRq
    exact mul_lt_mul_of_pos_right this (zpow_pos (by norm_num) _)
  have he1g : e1 ≤ g := by
    have := lt_of_le_of_lt hlo hxR
    rw [zpow_lt_zpow_iff_right₀ h2] at this
    omega
  have he1max : e1 ≤ 971 := by
    have := lt_of_le_of_lt hlo hov
    rw [zpow_lt_zpow_iff_right₀ h2] at this
    omega
  obtain ⟨e, hemax, hee1, hem, heg, he971⟩ : ∃ e : Int, max e1 (-1074) = e ∧ e1 ≤ e ∧
      -1074 ≤ e ∧ e ≤ g ∧ e ≤ 971 :=
    ⟨max e1 (-1074), rfl, le_max_left _ _, le_max_right _ _, max_le he1g hg,
      max_le he1max (by norm_num)⟩
  -- the quotient at that exponent is the integer `R * 2^(g - e)`
  have hs2 := F64.scale_pos n d e hd
  have hs2q : (0 : ℚ) < ((F64.scale n d e).2 : ℚ) := by exact_mod_cast hs2
  have hQ : ((R * 2 ^ (g - e).toNat : Nat) : ℚ) = (n : ℚ) / d * ((2 : ℚ) ^ e)⁻¹ := by
    rw [hval]
    push_cast
    rw [← zpow_natCast, Int.toNat_of_nonneg (by omega), zpow_sub₀ h20]
    field_simp
  have hs1 : (F64.scale n d e).1 = R * 2 ^ (g - e).toNat * (F64.scale n d e).2 := by
    have := F64.scale_val n d e hd
    rw [← hQ] at this
    exact_mod_cast this
  have hQlt : R * 2 ^ (g - e).toNat < 2 ^ 53 := by
    have hq : ((R * 2 ^ (g - e).toNat : Nat) : ℚ) < ((2 ^ 53 : Nat) : ℚ) := by
      rw [hQ]
      have h3 : (n : ℚ) / d * ((2 : ℚ) ^ e)⁻¹ ≤ (n : ℚ) / d * ((2 : ℚ) ^ e1)⁻¹ := by
        apply mul_le_mul_of_nonneg_left _ hx0.le
        rw [← zpow_neg, ← zpow_neg]
        exact zpow_le_zpow_right₀ h2.le (by omega)
      have h4 : (n : ℚ) / d * ((2 : ℚ) ^ e1)⁻¹ < 2 ^ (53 : ℤ) := by
        rw [← div_eq_mul_inv, div_lt_iff₀ (zpow_pos (by norm_num) _), ← zpow_add₀ h20]
        have : (53 : ℤ) + e1 = e1 + 53 := by ring
        rw [this]; exact hhi
      have h5 : (((2 : Nat) ^ 53 : Nat) : ℚ) = (2 : ℚ) ^ (53 : ℤ) := by norm_num
      rw [h5]
      exact lt_of_le_of_lt h3 h4
    exact_mod_cast hq
  refine ⟨R * 2 ^ (g - e).toNat, e, ?_, ?_⟩
  · unfold F64.round
    rw [if_neg hn.ne']
    simp only [he1, hemax, hs1, Nat.mul_div_cancel _ hs2, Nat.mul_mod_left, mul_zero]
    have hc1 : ¬ ((F64.scale n d e).2 < 0 ∨
        0 = (F64.scale n d e).2 ∧ R * 2 ^ (g - e).toNat % 2 = 1) := by omega
    simp only [if_neg hc1, if_neg (Nat.ne_of_lt hQlt)]
    rw [if_neg (by omega)]
  · rw [hQ, hval]
    field_simp
theorem F64.signed_cast (s : Bool) (n : Nat) :
    ((F64.signed s n : Int) : ℚ) = if s then -(n : ℚ) else (n : ℚ) := by
  cases s <;> simp [F64.signed]

theorem F64.signed_natAbs (c : Int) : F64.signed (decide (c < 0)) c.natAbs = c := by
  by_cases h : c < 0
  · simp only [F64.signed, h, decide_True, if_true]; omega
  · simp only [F64.signed, h, decide_False]
    have h0 : 0 ≤ c := not_lt.mp h
    simp [Int.natAbs_of_nonneg h0]

/-- A dyadic value that is a `float64` is converted unchanged. -/
theorem F64.ofDyadic_rep (neg : Bool) (n R : Nat) (g0 g : Int) (hR : R < 2 ^ 53)
    (hg : -1074 ≤ g) (hval : (n : ℚ) * (2 : ℚ) ^ g0 = R * (2 : ℚ) ^ g)
    (hov : (n : ℚ) * (2 : ℚ) ^ g0 < (2 : ℚ) ^ (1024 : ℤ)) :
    (F64.ofDyadic neg n g0).toRat = some ((F64.signed neg n : ℚ) * (2 : ℚ) ^ g0) := by
  rcases Nat.eq_zero_or_pos n with h0 | h0
  · subst h0
    unfold F64.ofDyadic
    split_ifs <;> cases neg <;> simp [F64.round, F64.toRat, F64.signed]
  · have key : ∀ (Q : Nat) (e : Int), (Q : ℚ) * (2 : ℚ) ^ e = R * (2 : ℚ) ^ g →
        (F64.fin neg Q e).toRat = some ((F64.signed neg n : ℚ) * (2 : ℚ) ^ g0) := by
      intro Q e hQ
      simp only [F64.toRat, F64.signed_cast]
      cases neg
      · simp only [Bool.false_eq_true, if_false]; rw [hQ, hval]
      · simp only [if_true]; rw [neg_mul, neg_mul, hQ, hval]
    unfold F64.ofDyadic
    split_ifs with hs
    · have hc : ((n * 2 ^ g0.toNat : Nat) : ℚ) / ((1 : Nat) : ℚ) = (n : ℚ) * (2 : ℚ) ^ g0 := by
        push_cast
        rw [div_one, ← zpow_natCast, Int.toNat_of_nonneg hs]
      obtain ⟨Q, e, hr, hQ⟩ := F64.round_rep neg (n * 2 ^ g0.toNat) 1 R g
        (Nat.mul_pos h0 (by positivity)) Nat.one_pos hR hg (by rw [hc]; exact hval)
        (by rw [hc]; exact hov)
      rw [hr]; exact key Q e hQ
    · have hc : ((n : Nat) : ℚ) / ((2 ^ (-g0).toNat : Nat) : ℚ) = (n : ℚ) * (2 : ℚ) ^ g0 := by
        push_cast
        rw [← zpow_natCast, Int.toNat_of_nonneg (by omega), zpow_neg, div_eq_mul_inv, inv_inv]
      obtain ⟨Q, e, hr, hQ⟩ := F64.round_rep neg n (2 ^ (-g0).toNat) R g
        h0 (by positivity) hR hg (by rw [hc]; exact hval) (by rw [hc]; exact hov)
      rw [hr]; exact key Q e hQ

/-- An integer of magnitude at most `2^53` is a `float64`. -/
theorem F64.int_rep (N : Nat) (h : N ≤ 2 ^ 53) :
    ∃ R : Nat, ∃ g : Int, R < 2 ^ 53 ∧ -1074 ≤ g ∧ (N : ℚ) = R * (2 : ℚ) ^ g ∧
      (N : ℚ) < (2 : ℚ) ^ (1024 : ℤ) := by
  have hlt : (N : ℚ) < (2 : ℚ) ^ (1024 : ℤ) := by
    have h1 : (N : ℚ) ≤ ((2 ^ 53 : Nat) : ℚ) := by exact_mod_cast h
    have h2 : (((2 : Nat) ^ 53 : Nat) : ℚ) < (2 : ℚ) ^ (1024 : ℤ) := by norm_num
    exact lt_of_le_of_lt h1 h2
  rcases Nat.lt_or_ge N (2 ^ 53) with hN | hN
  · exact ⟨N, 0, hN, by norm_num, by simp, hlt⟩
  · have hN2 : N = 2 ^ 53 := by omega
    subst hN2
    exact ⟨2 ^ 52, 1, by norm_num, by norm_num, by norm_num, hlt⟩
theorem F64.signed_shift (s : Bool) (m : Nat) (e g0 : Int) (h : g0 ≤ e) :
    ((F64.signed s (m * 2 ^ (e - g0).toNat) : Int) : ℚ) * (2 : ℚ) ^ g0
      = (F64.signed s m : ℚ) * (2 : ℚ) ^ e := by
  have hp : ((2 : ℚ) ^ (e - g0).toNat) * (2 : ℚ) ^ g0 = (2 : ℚ) ^ e := by
    rw [← zpow_natCast, Int.toNat_of_nonneg (by omega), ← zpow_add₀ (by norm_num : (2 : ℚ) ≠ 0)]
    congr 1; ring
  simp only [F64.signed_cast]
  cases s
  · simp only [Bool.false_eq_true, if_false]; push_cast; rw [mul_assoc, hp]
  · simp only [if_true]; push_cast; rw [neg_mul, neg_mul, mul_assoc, hp]

theorem F64.natAbs_cast_rat (c : Int) : ((c.natAbs : Nat) : ℚ) = |(c : ℚ)| := by
  rw [Nat.cast_natAbs, Int.cast_abs]

/-- Addition is exact when the exact sum is a `float64`. -/
theorem F64.add_exact (x y : F64) (a b : ℚ) (hx : x.toRat = some a) (hy : y.toRat = some b)
    (R : Nat) (g : Int) (hR : R < 2 ^ 53) (hg : -1074 ≤ g)
    (hval : |a + b| = R * (2 : ℚ) ^ g) (hov : |a + b| < (2 : ℚ) ^ (1024 : ℤ)) :
    (F64.add x y).toRat = some (a + b) := by
  cases x with
  | nan => simp [F64.toRat] at hx
  | inf s => simp [F64.toRat] at hx
  | fin s m e =>
    cases y with
    | nan => simp [F64.toRat] at hy
    | inf t => simp [F64.toRat] at hy
    | fin t k f =>
      simp only [F64.toRat, Option.some.injEq] at hx hy
      have hA := F64.signed_shift s m e (min e f) (min_le_left _ _)
      have hB := F64.signed_shift t k f (min e f) (min_le_right _ _)
      have hc : (((F64.signed s (m * 2 ^ (e - min e f).toNat)
          + F64.signed t (k * 2 ^ (f - min e f).toNat) : Int)) : ℚ) * (2 : ℚ) ^ (min e f)
          = a + b := by
        push_cast
        rw [add_mul, hA, hB, hx, hy]
      simp only [F64.add]
      generalize F64.signed s (m * 2 ^ (e - min e f).toNat)
          + F64.signed t (k * 2 ^ (f - min e f).toNat) = c at hc ⊢
      by_cases h0 : c = 0
      · rw [if_pos h0]
        subst h0
        simp only [Int.cast_zero, zero_mul] at hc
        rw [← hc]
        cases s <;> cases t <;> simp [F64.toRat, F64.signed]
      · rw [if_neg h0]
        have h2pos : (0 : ℚ) < (2 : ℚ) ^ (min e f) := zpow_pos (by norm_num) _
        have habs : ((c.natAbs : Nat) : ℚ) * (2 : ℚ) ^ (min e f) = |a + b| := by
          rw [F64.natAbs_cast_rat, ← hc, abs_mul, abs_of_pos h2pos]
        rw [F64.ofDyadic_rep _ c.natAbs R (min e f) g hR hg (by rw [habs]; exact hval)
          (by rw [habs]; exact hov), F64.signed_natAbs, hc]

theorem F64.toRat_neg (y : F64) (b : ℚ) (hy : y.toRat = some b) :
    (F64.neg y).toRat = some (-b) := by
  cases y with
  | nan => simp [F64.toRat] at hy
  | inf t => simp [F64.toRat] at hy
  | fin t k f =>
    simp only [F64.toRat, Option.some.injEq] at hy
    simp only [F64.neg, F64.toRat, F64.signed_not, Option.some.injEq]
    rw [← hy]; push_cast; ring

/-- Subtraction is exact when the exact difference is a `float64`. -/
theorem F64.sub_exact (x y : F64) (a b : ℚ) (hx : x.toRat = some a) (hy : y.toRat = some b)
    (R : Nat) (g : Int) (hR : R < 2 ^ 53) (hg : -1074 ≤ g)
    (hval : |a - b| = R * (2 : ℚ) ^ g) (hov : |a - b| < (2 : ℚ) ^ (1024 : ℤ)) :
    (F64.sub x y).toRat = some (a - b) := by
  rw [sub_eq_add_neg] at hval hov ⊢
  exact F64.add_exact x (F64.neg y) a (-b) hx (F64.toRat_neg y b hy) R g hR hg hval hov

/-- Multiplication is exact when the exact product is a `float64`. -/
theorem F64.mul_exact (x y : F64) (a b : ℚ) (hx : x.toRat = some a) (hy : y.toRat = some b)
    (R : Nat) (g : Int) (hR : R < 2 ^ 53) (hg : -1074 ≤ g)
    (hval : |a * b| = R * (2 : ℚ) ^ g) (hov : |a * b| < (2 : ℚ) ^ (1024 : ℤ)) :
    (F64.mul x y).toRat = some (a * b) := by
  cases x with
  | nan => simp [F64.toRat] at hx
  | inf s => simp [F64.toRat] at hx
  | fin s m e =>
    cases y with
    | nan => simp [F64.toRat] at hy
    | inf t => simp [F64.toRat] at hy
    | fin t k f =>
      simp only [F64.toRat, Option.some.injEq] at hx hy
      have hprod : ((F64.signed (xor s t) (m * k) : Int) : ℚ) * (2 : ℚ) ^ (e + f) = a * b := by
        rw [← hx, ← hy, zpow_add₀ (by norm_num : (2 : ℚ) ≠ 0)]
        simp only [F64.signed_cast]
        cases s <;> cases t <;> simp <;> ring
      have habs : ((m * k : Nat) : ℚ) * (2 : ℚ) ^ (e + f) = |a * b| := by
        rw [← hprod, abs_mul, abs_of_pos (zpow_pos (by norm_num : (0 : ℚ) < 2) (e + f))]
        congr 1
        simp only [F64.signed_cast]
        split_ifs
        · rw [abs_neg, abs_of_nonneg (by positivity)]
        · rw [abs_of_nonneg (by positivity)]
      simp only [F64.mul]
      rw [F64.ofDyadic_rep _ (m * k) R (e + f) g hR hg (by rw [habs]; exact hval)
        (by rw [habs]; exact hov), hprod]
/-- `math.Mod` is exact: on finite operands with a non-zero divisor the result
is `r = a - b * q` for an integer `q`, smaller than `b` in magnitude, and zero
or of the sign of `a`; that is, `q = trunc(a / b)`. -/
theorem F64.mod_exact (x y : F64) (a b : ℚ) (hx : x.toRat = some a) (hy : y.toRat = some b)
    (hxb : x.bounded) (hyb : y.bounded) (hb : b ≠ 0) :
    ∃ r : ℚ, ∃ q : ℤ, (F64.mod x y).toRat = some r ∧ r = a - b * q ∧ |r| < |b| ∧
      (r = 0 ∨ (0 < r ∧ 0 < a) ∨ (r < 0 ∧ a < 0)) := by
  cases x with
  | nan => simp [F64.toRat] at hx
  | inf s => simp [F64.toRat] at hx
  | fin s m e =>
    cases y with
    | nan => simp [F64.toRat] at hy
    | inf t => simp [F64.toRat] at hy
    | fin t k f =>
      simp only [F64.toRat, Option.some.injEq] at hx hy
      obtain ⟨hm, he1, he2⟩ := hxb
      obtain ⟨hk, hf1, hf2⟩ := hyb
      have hP : (0 : ℚ) < (2 : ℚ) ^ (min e f) := zpow_pos (by norm_num) _
      have hk0 : k ≠ 0 := by
        rintro rfl
        apply hb
        rw [← hy]
        cases t <;> simp [F64.signed]
      have hA := F64.signed_shift s m e (min e f) (min_le_left _ _)
      have hB := F64.signed_shift t k f (min e f) (min_le_right _ _)
      rw [hx] at hA
      rw [hy] at hB
      have hY : 0 < k * 2 ^ (f - min e f).toNat := Nat.mul_pos (Nat.pos_of_ne_zero hk0) (by positivity)
      have hdm := Nat.div_add_mod (m * 2 ^ (e - min e f).toNat) (k * 2 ^ (f - min e f).toNat)
      have hlt := Nat.mod_lt (m * 2 ^ (e - min e f).toNat) hY
      have hle := Nat.mod_le (m * 2 ^ (e - min e f).toNat) (k * 2 ^ (f - min e f).toNat)
      have hR : (m * 2 ^ (e - min e f).toNat) % (k * 2 ^ (f - min e f).toNat) < 2 ^ 53 := by
        rcases le_total e f with h | h
        · have h0 : (e - min e f).toNat = 0 := by rw [min_eq_left h]; simp
          rw [h0, pow_zero, mul_one] at hle ⊢
          omega
        · have h0 : (f - min e f).toNat = 0 := by rw [min_eq_right h]; simp
          rw [h0, pow_zero, mul_one] at hlt ⊢
          omega
      generalize hX : m * 2 ^ (e - min e f).toNat = X at hA hdm hlt hle hR
      generalize hYd : k * 2 ^ (f - min e f).toNat = Y at hB hdm hlt hle hR hY
      have hov : ((X % Y : Nat) : ℚ) * (2 : ℚ) ^ (min e f) < (2 : ℚ) ^ (1024 : ℤ) := by
        have h1 : ((X % Y : Nat) : ℚ) * (2 : ℚ) ^ (min e f) ≤ (X : ℚ) * (2 : ℚ) ^ (min e f) := by
          apply mul_le_mul_of_nonneg_right _ hP.le
          exact_mod_cast hle
        have h2 : (X : ℚ) * (2 : ℚ) ^ (min e f) = (m : ℚ) * (2 : ℚ) ^ e := by
          have := F64.signed_shift false m e (min e f) (min_le_left _ _)
          rw [hX] at this
          simpa [F64.signed] using this
        have h3 : (m : ℚ) * (2 : ℚ) ^ e < (2 : ℚ) ^ (53 : ℤ) * (2 : ℚ) ^ (971 : ℤ) := by
          have hmq : (m : ℚ) < (2 : ℚ) ^ (53 : ℤ) := by
            have : (m : ℚ) < ((2 ^ 53 : Nat) : ℚ) := by exact_mod_cast hm
            have h5 : (((2 : Nat) ^ 53 : Nat) : ℚ) = (2 : ℚ) ^ (53 : ℤ) := by norm_num
            rw [h5] at this; exact this
          have heq : (2 : ℚ) ^ e ≤ (2 : ℚ) ^ (971 : ℤ) := zpow_le_zpow_right₀ (by norm_num) he2
          calc (m : ℚ) * (2 : ℚ) ^ e ≤ (m : ℚ) * (2 : ℚ) ^ (971 : ℤ) :=
                mul_le_mul_of_nonneg_left heq (by positivity)
            _ < (2 : ℚ) ^ (53 : ℤ) * (2 : ℚ) ^ (971 : ℤ) :=
                mul_lt_mul_of_pos_right hmq (zpow_pos (by norm_num) _)
        have h4 : (2 : ℚ) ^ (53 : ℤ) * (2 : ℚ) ^ (971 : ℤ) = (2 : ℚ) ^ (1024 : ℤ) := by
          rw [← zpow_add₀ (by norm_num : (2 : ℚ) ≠ 0)]; norm_num
        rw [h2] at h1
        rw [← h4]
        exact lt_of_le_of_lt h1 h3
      have hres : (F64.mod (F64.fin s m e) (F64.fin t k f)).toRat
          = some ((F64.signed s (X % Y) : ℚ) * (2 : ℚ) ^ (min e f)) := by
        simp only [F64.mod, if_neg hk0, hX, hYd]
        exact F64.ofDyadic_rep s (X % Y) (X % Y) (min e f) (min e f) hR (le_min he1 hf1) rfl hov
      generalize X % Y = Rn at hdm hlt hle hres
      generalize X / Y = Qn at hdm
      have hdmq : (X : ℚ) = (Y : ℚ) * (Qn : ℚ) + (Rn : ℚ) := by exact_mod_cast hdm.symm
      have hltq : (Rn : ℚ) < (Y : ℚ) := by exact_mod_cast hlt
      have hYq : (0 : ℚ) < (Y : ℚ) := by exact_mod_cast hY
      have hRq0 : (0 : ℚ) ≤ (Rn : ℚ) := by positivity
      have hsA : (F64.signed s X : ℚ) = (if s then -(X : ℚ) else (X : ℚ)) := F64.signed_cast s X
      have hsB : (F64.signed t Y : ℚ) = (if t then -(Y : ℚ) else (Y : ℚ)) := F64.signed_cast t Y
      have hsR : (F64.signed s Rn : ℚ) = (if s then -(Rn : ℚ) else (Rn : ℚ)) :=
        F64.signed_cast s Rn
      have hs1 : (F64.signed s 1 : ℚ) = (if s then -(1 : ℚ) else (1 : ℚ)) := by
        simpa using F64.signed_cast s 1
      have ht1 : (F64.signed t 1 : ℚ) = (if t then -(1 : ℚ) else (1 : ℚ)) := by
        simpa using F64.signed_cast t 1
      refine ⟨(F64.signed s Rn : ℚ) * (2 : ℚ) ^ (min e f),
        F64.signed s 1 * F64.signed t 1 * (Qn : Int), hres, ?_, ?_, ?_⟩
      · rw [← hA, ← hB]
        push_cast
        rw [hsA, hsB, hsR, hs1, ht1, hdmq]
        cases s <;> cases t <;> simp <;> ring
      · rw [← hB, abs_mul, abs_mul, abs_of_pos hP]
        apply mul_lt_mul_of_pos_right _ hP
        rw [hsB, hsR]
        have h1 : |(if s then -(Rn : ℚ) else (Rn : ℚ))| = (Rn : ℚ) := by
          cases s
          · simp
          · simp
        have h2 : |(if t then -(Y : ℚ) else (Y : ℚ))| = (Y : ℚ) := by
          cases t
          · simp
          · simp
        rw [h1, h2]; exact hltq
      · rcases Nat.eq_zero_or_pos Rn with h0 | h0
        · left
          rw [h0]
          cases s <;> simp [F64.signed]
        · have hrq : (0 : ℚ) < (Rn : ℚ) := by exact_mod_cast h0
          have hXq : (0 : ℚ) < (X : ℚ) := by
            have h1 : 0 < X := by omega
            exact_mod_cast h1
          right
          rw [← hA, hsA, hsR]
          cases s
          · left
            simp only [Bool.false_eq_true, if_false]
            exact ⟨mul_pos hrq hP, mul_pos hXq hP⟩
          · right
            simp only [if_true]
            constructor
            · rw [neg_mul]; exact neg_neg_of_pos (mul_pos hrq hP)
            · rw [neg_mul]; exact neg_neg_of_pos (mul_pos hXq hP)

/-- The conversion of an integer of magnitude at most `2^53` is a bounded
finite `float64`. -/
theorem F64.round_bounded (s : Bool) (n : Nat) (h : n ≤ 2 ^ 53) : (F64.round s n 1).bounded := by
  rcases Nat.eq_zero_or_pos n with h0 | h0
  · subst h0
    simp [F64.round, F64.bounded]
  · rcases Nat.lt_or_ge n (2 ^ 53) with hlt | hge
    · obtain ⟨_, hhi⟩ := F64.log2_spec n h0
      have hL : F64.log2 n ≤ 52 := F64.log2_le_52 n h0 hlt
      rw [F64.round_small s n h0 hlt]
      refine ⟨?_, by omega, by omega⟩
      calc n * 2 ^ (52 - F64.log2 n) < 2 ^ (F64.log2 n + 1) * 2 ^ (52 - F64.log2 n) :=
            Nat.mul_lt_mul_of_pos_right hhi (by positivity)
        _ = 2 ^ 53 := by rw [← pow_add]; congr 1; omega
    · have h53 : n = 2 ^ 53 := by omega
      subst h53
      have hr : F64.round s (2 ^ 53) 1 = F64.fin s (2 ^ 52) 1 := by cases s <;> decide
      rw [hr]
      simp [F64.bounded]

/-! ## The claims -/

/-- C1 as stated fails: the `uint64` value `2^53 + 1` is converted without
error to the `float64` `2^53`, which is not its exact value. -/
theorem C1_exact_counterexample :
    AsFloat (New (Value.uint64 9007199254740993))
      = .ret (Element.mk (Value.float64 (F64.fin false 4503599627370496 1)) Kind.Float64,
          none) ∧
    (F64.fin false 4503599627370496 1).toRat = some 9007199254740992 ∧
    (Value.uint64 9007199254740993).exact = some 9007199254740993 ∧
    (F64.fin false 4503599627370496 1).toRat ≠ (Value.uint64 9007199254740993).exact := by
  have hr : (F64.fin false 4503599627370496 1).toRat = some 9007199254740992 := by
    norm_num [F64.toRat, F64.signed]
  refine ⟨by decide, hr, by simp [Value.exact], ?_⟩
  rw [hr]
  norm_num [Value.exact]

/-- C1, amended: for every payload `v` of a numeric type other than `int8`,
`AsFloat` on `New v` returns a nil error and leaves a cell of kind `Float64`
holding `float64(v)`; that value is the exact value of `v` whenever
`|v| ≤ 2^53` (every value of an integer type of at most 32 bits is), and is
`v` itself for a float payload. -/
theorem C1_AsFloat_numeric (v : Value) (hc : v.coercible = true) :
    AsFloat (New v) = .ret (Element.mk (Value.float64 v.toF64) Kind.Float64, none) ∧
    (v.magnitude ≤ 2 ^ 53 → v.toF64.toRat = v.exact) := by
  refine ⟨by rw [New_eq]; exact AsFloat_coercible _ hc, fun hm => ?_⟩
  cases v <;>
    first
    | exact F64.ofNat_exact _ hm
    | exact F64.ofInt_exact _ hm
    | rfl
    | simp [Value.coercible] at hc

/-- C1 at the `uint64` value `2^53`, the largest magnitude the exactness
covers. -/
theorem C1_AsFloat_numeric_witness :
    (Value.uint64 9007199254740992).coercible = true ∧
    (Value.uint64 9007199254740992).magnitude ≤ 2 ^ 53 ∧
    AsFloat (New (Value.uint64 9007199254740992))
      = .ret (Element.mk (Value.float64 (Value.uint64 9007199254740992).toF64) Kind.Float64,
          none) ∧
    (Value.uint64 9007199254740992).toF64.toRat = (Value.uint64 9007199254740992).exact :=
  ⟨rfl, by decide, (C1_AsFloat_numeric (Value.uint64 9007199254740992) rfl).1,
    (C1_AsFloat_numeric (Value.uint64 9007199254740992) rfl).2 (by decide)⟩

/-- C2: on a cell whose payload is a boolean, a string or nil (whatever its
kind tag), `AsFloat` returns the arithmetic error and the cell after the call
is the cell before it, value and kind tag alike. -/
theorem C2_AsFloat_nonNumeric_unchanged (t : Kind) :
    (∀ b, AsFloat (Element.mk (Value.bool b) t)
        = .ret (Element.mk (Value.bool b) t, some arithmeticError)) ∧
    (∀ s, AsFloat (Element.mk (Value.string s) t)
        = .ret (Element.mk (Value.string s) t, some arithmeticError)) ∧
    AsFloat (Element.mk Value.nil t) = .ret (Element.mk Value.nil t, some arithmeticError) ∧
    (∀ b, AsFloat (New (Value.bool b)) = .ret (New (Value.bool b), some arithmeticError)) ∧
    (∀ s, AsFloat (New (Value.string s)) = .ret (New (Value.string s), some arithmeticError)) ∧
    AsFloat (New Value.nil) = .ret (New Value.nil, some arithmeticError) :=
  ⟨fun _ => rfl, fun _ => rfl, rfl, fun _ => rfl, fun _ => rfl, rfl⟩

/-- C3 (fails at `int8`): with an `int8` left operand, `Op` panics for every
right operand and every symbol, so two numeric operands do not always give a
result cell; with a `float64` left operand and an `int8` right operand it
panics as well. -/
theorem C3_Op_int8_panics (i : Int) (x : Element) (f : F64) (op : String) :
    Op (New (Value.int8 i)) x op
      = .panic "interface conversion: interface \x7b\x7d is int8, not uint8" ∧
    Op (New (Value.float64 f)) (New (Value.int8 i)) op
      = .panic "interface conversion: interface \x7b\x7d is int8, not uint8" := by
  refine ⟨by rw [New_eq]; rfl, ?_⟩
  rw [New_eq, New_eq]
  rfl

/-- C4 (fails): `Eq` on two constructed cells panics exactly when one
payload is of float kind and the other is a boolean, a string or an `int8`: the
cells are then not deeply equal, the float branch is taken, and a `float64`
assertion (or the `int8` case of `AsFloat`) fails. -/
theorem C4_Eq_panics_iff (v w : Value) :
    (∃ msg, Eq (New v) (New w) = .panic msg) ↔
      (v.isFloat = true ∧ w.blocks = true) ∨ (v.blocks = true ∧ w.isFloat = true) := by
  rw [New_eq, New_eq]
  cases v <;> cases w <;>
    simp [Eq, DeepEqual, Value.deepEqual, Value.kind, Value.isFloat, Value.blocks, AsFloat,
      AsFloat.store, assertUint8, assertUint16, assertInt16, assertUint32, assertInt32,
      assertUint64, assertInt64, assertInt, assertFloat32, assertFloat64, Outcome.bind] <;>
    (repeat' split) <;> simp

/-- C5 (fails everywhere): `Op` with the symbol `==` never returns.  The
operator table has no entry under `==`, so once both coercions are past the
dispatcher calls a nil function; an `int8` operand panics before that. -/
theorem C5_Op_eq_symbol_panics (e x : Element) : ∃ msg, Op e x "==" = .panic msg := by
  have key : ∀ y : Element, (∃ r, AsFloat y = .ret r) ∨ ∃ msg, AsFloat y = .panic msg := by
    intro y
    rcases Value.trichotomy y.Val with h | h | ⟨i, h⟩
    · exact Or.inl ⟨_, AsFloat_coercible y h⟩
    · exact Or.inl ⟨_, AsFloat_nonNumeric y h⟩
    · obtain ⟨v, t⟩ := y
      subst h
      exact Or.inr ⟨_, AsFloat_int8 i t⟩
  rcases key e with ⟨p, hp⟩ | ⟨m, hm⟩
  · rcases key x with ⟨q, hq⟩ | ⟨m, hm⟩
    · exact ⟨nilCallPanic, by simp [Op, hp, hq, Outcome.bind, Ops_eq_symbol]⟩
    · exact ⟨m, by simp [Op, hp, hm, Outcome.bind]⟩
  · exact ⟨m, by simp [Op, hm, Outcome.bind]⟩

/-- C6: the absent-value rule.  A cell whose payload is not nil compares
false with the absent cell on either side, with a nil error, and the absent
cell compares true with itself. -/
theorem C6_Eq_absent (c : Element) (h : c.Val ≠ Value.nil) :
    Eq (New Value.nil) c = .ret (New (Value.bool false), none) ∧
    Eq c (New Value.nil) = .ret (New (Value.bool false), none) ∧
    Eq (New Value.nil) (New Value.nil) = .ret (New (Value.bool true), none) := by
  refine ⟨?_, ?_, by decide⟩ <;> simp [Eq, New_eq, h]

/-- C6 at the float cell `5.0`. -/
theorem C6_Eq_absent_witness :
    (New (Value.float64 (F64.ofInt 5))).Val ≠ Value.nil ∧
    (Eq (New Value.nil) (New (Value.float64 (F64.ofInt 5)))
        = .ret (New (Value.bool false), none) ∧
      Eq (New (Value.float64 (F64.ofInt 5))) (New Value.nil)
        = .ret (New (Value.bool false), none) ∧
      Eq (New Value.nil) (New Value.nil) = .ret (New (Value.bool true), none)) :=
  ⟨by decide, C6_Eq_absent (New (Value.float64 (F64.ofInt 5))) (by decide)⟩

/-- C7 (fails): a string cell or a boolean cell against a cell of float kind,
in either order, makes `Eq` panic instead of returning false: `AsFloat` leaves
the string (boolean) in place, its error is dropped, and the `float64`
assertion on the payload fails. -/
theorem C7_Eq_string_float_panics (s : String) (b : Bool) (f : F64) :
    Eq (New (Value.string s)) (New (Value.float64 f))
      = .panic "interface conversion: interface \x7b\x7d is string, not float64" ∧
    Eq (New (Value.float64 f)) (New (Value.string s))
      = .panic "interface conversion: interface \x7b\x7d is string, not float64" ∧
    Eq (New (Value.string s)) (New (Value.float32 f))
      = .panic "interface conversion: interface \x7b\x7d is string, not float64" ∧
    Eq (New (Value.float32 f)) (New (Value.string s))
      = .panic "interface conversion: interface \x7b\x7d is string, not float64" ∧
    Eq (New (Value.bool b)) (New (Value.float64 f))
      = .panic "interface conversion: interface \x7b\x7d is bool, not float64" ∧
    Eq (New (Value.float64 f)) (New (Value.bool b))
      = .panic "interface conversion: interface \x7b\x7d is bool, not float64" ∧
    Eq (New (Value.bool b)) (New (Value.float32 f))
      = .panic "interface conversion: interface \x7b\x7d is bool, not float64" ∧
    Eq (New (Value.float32 f)) (New (Value.bool b))
      = .panic "interface conversion: interface \x7b\x7d is bool, not float64" := by
  simp only [New_eq]
  exact ⟨rfl, rfl, rfl, rfl, rfl, rfl, rfl, rfl⟩

/-- C8 (fails at `int8`): an `int8` cell against a cell of float kind, in
either order, makes `Eq` panic for every value, `Eq(New(int8(1)), New(1.0))`
included: the coercion of the `int8` cell asserts a `uint8`. -/
theorem C8_Eq_int8_float_panics (i : Int) (f : F64) :
    Eq (New (Value.int8 i)) (New (Value.float64 f))
      = .panic "interface conversion: interface \x7b\x7d is int8, not uint8" ∧
    Eq (New (Value.float64 f)) (New (Value.int8 i))
      = .panic "interface conversion: interface \x7b\x7d is int8, not uint8" ∧
    Eq (New (Value.int8 i)) (New (Value.float32 f))
      = .panic "interface conversion: interface \x7b\x7d is int8, not uint8" ∧
    Eq (New (Value.float32 f)) (New (Value.int8 i))
      = .panic "interface conversion: interface \x7b\x7d is int8, not uint8" ∧
    Eq (New (Value.int8 1)) (New (Value.float64 (F64.ofInt 1)))
      = .panic "interface conversion: interface \x7b\x7d is int8, not uint8" := by
  simp only [New_eq]
  exact ⟨rfl, rfl, rfl, rfl, rfl⟩

/-- For the nine integer types other than `int8`, a cell holding `v` and the
float cell holding `float64(v)` compare true in either order. -/
theorem Eq_integer_float (v : Value) (hc : v.coercible = true) (hf : v.isFloat = false) :
    Eq (New v) (New (Value.float64 v.toF64)) = .ret (New (Value.bool true), none) ∧
    Eq (New (Value.float64 v.toF64)) (New v) = .ret (New (Value.bool true), none) := by
  rw [New_eq, New_eq]
  cases v <;>
    first
    | (simp [Value.coercible] at hc; done)
    | (simp [Value.isFloat] at hf; done)
    | simp [Eq, DeepEqual, Value.deepEqual, Value.kind, Value.toF64, AsFloat, AsFloat.store,
        assertUint8, assertUint16, assertInt16, assertUint32, assertInt32, assertUint64,
        assertInt64, assertInt, assertFloat64, Outcome.bind, F64.gt_tol_self]

theorem Eq_float64_float64 (a b : F64) :
    Eq (New (Value.float64 a)) (New (Value.float64 b))
      = .ret (New (Value.bool (!F64.gt (F64.abs (F64.sub a b)) F64.tol)), none) := by
  by_cases h : F64.eq a b = true
  · simp [Eq, New_eq, DeepEqual, Value.deepEqual, Value.kind, h, F64.gt_tol_of_eq a b h]
  · simp only [Bool.not_eq_true] at h
    simp only [Eq, New_eq, DeepEqual, Value.deepEqual, Value.kind, h]
    cases hg : F64.gt (F64.abs (F64.sub a b)) F64.tol <;>
      simp [AsFloat, assertFloat64, AsFloat.store, Outcome.bind, hg]

theorem Eq_float32_float32 (a b : F64) :
    Eq (New (Value.float32 a)) (New (Value.float32 b))
      = .ret (New (Value.bool (!F64.gt (F64.abs (F64.sub a b)) F64.tol)), none) := by
  by_cases h : F64.eq a b = true
  · simp [Eq, New_eq, DeepEqual, Value.deepEqual, Value.kind, h, F64.gt_tol_of_eq a b h]
  · simp only [Bool.not_eq_true] at h
    simp only [Eq, New_eq, DeepEqual, Value.deepEqual, Value.kind, h]
    cases hg : F64.gt (F64.abs (F64.sub a b)) F64.tol <;>
      simp [AsFloat, assertFloat32, assertFloat64, AsFloat.store, Outcome.bind, hg]

theorem Eq_float32_float64 (a b : F64) :
    Eq (New (Value.float32 a)) (New (Value.float64 b))
      = .ret (New (Value.bool (!F64.gt (F64.abs (F64.sub a b)) F64.tol)), none) := by
  simp only [Eq, New_eq, DeepEqual, Value.deepEqual, Value.kind]
  cases hg : F64.gt (F64.abs (F64.sub a b)) F64.tol <;>
    simp [AsFloat, assertFloat32, assertFloat64, AsFloat.store, Outcome.bind, hg]

theorem Eq_float64_float32 (a b : F64) :
    Eq (New (Value.float64 a)) (New (Value.float32 b))
      = .ret (New (Value.bool (!F64.gt (F64.abs (F64.sub a b)) F64.tol)), none) := by
  simp only [Eq, New_eq, DeepEqual, Value.deepEqual, Value.kind]
  cases hg : F64.gt (F64.abs (F64.sub a b)) F64.tol <;>
    simp [AsFloat, assertFloat32, assertFloat64, AsFloat.store, Outcome.bind, hg]

/-- What `Eq` computes on two cells of float kind (`float32` or `float64`,
in any combination) holding `a` and `b`: the boolean cell false when the test
`|a - b| > 1e-10` succeeds and the boolean cell true when it does not, which is
when `a - b` is NaN or `|a - b| <= 1e-10`. -/
theorem Eq_float_cells (a b : F64) :
    Eq (New (Value.float64 a)) (New (Value.float64 b)) = toleranceOutcome a b ∧
    Eq (New (Value.float32 a)) (New (Value.float32 b)) = toleranceOutcome a b ∧
    Eq (New (Value.float32 a)) (New (Value.float64 b)) = toleranceOutcome a b ∧
    Eq (New (Value.float64 a)) (New (Value.float32 b)) = toleranceOutcome a b ∧
    Eq (New (Value.float64 (F64.ofInt 0))) (New (Value.float64 (F64.round false 5 (10 ^ 11))))
      = .ret (New (Value.bool true), none) ∧
    Eq (New (Value.float64 (F64.ofInt 0))) (New (Value.float64 (F64.round false 5 (10 ^ 9))))
      = .ret (New (Value.bool false), none) := by
  refine ⟨?_, ?_, ?_, ?_, by decide, by decide⟩
  · rw [Eq_float64_float64, toleranceOutcome, F64.not_gt_tol]
  · rw [Eq_float32_float32, toleranceOutcome, F64.not_gt_tol]
  · rw [Eq_float32_float64, toleranceOutcome, F64.not_gt_tol]
  · rw [Eq_float64_float32, toleranceOutcome, F64.not_gt_tol]

/-- Where the difference `a - b` is a number, `Eq` on two cells of float kind
is the tolerance rule: true when `|a - b| <= 1e-10` and false otherwise. -/
theorem Eq_tolerance_of_sub_ne_nan (a b : F64) (h : F64.sub a b ≠ F64.nan) :
    Eq (New (Value.float64 a)) (New (Value.float64 b)) = toleranceRule a b ∧
    Eq (New (Value.float32 a)) (New (Value.float32 b)) = toleranceRule a b ∧
    Eq (New (Value.float32 a)) (New (Value.float64 b)) = toleranceRule a b ∧
    Eq (New (Value.float64 a)) (New (Value.float32 b)) = toleranceRule a b := by
  have ht : toleranceOutcome a b = toleranceRule a b := by
    simp [toleranceOutcome, toleranceRule, h]
  obtain ⟨h1, h2, h3, h4, _⟩ := Eq_float_cells a b
  rw [← ht]
  exact ⟨h1, h2, h3, h4⟩

/-- C9 (fails at NaN): a `float64` cell holding NaN compares true with every
`float64` cell, in either order, although the tolerance rule says false (NaN
is within `1e-10` of nothing) and `reflect.DeepEqual`, on the same path, holds
the NaN cell unequal to itself: the test `|a - b| > 1e-10` is false on NaN and
falls through to the true cell.  NaN against `1.0` is such a pair. -/
theorem C9_Eq_nan_compares_true (b : F64) :
    Eq (New (Value.float64 F64.nan)) (New (Value.float64 b))
      = .ret (New (Value.bool true), none) ∧
    Eq (New (Value.float64 b)) (New (Value.float64 F64.nan))
      = .ret (New (Value.bool true), none) ∧
    toleranceRule F64.nan b = .ret (New (Value.bool false), none) ∧
    toleranceRule b F64.nan = .ret (New (Value.bool false), none) ∧
    DeepEqual (New (Value.float64 F64.nan)) (New (Value.float64 F64.nan)) = false ∧
    Eq (New (Value.float64 F64.nan)) (New (Value.float64 (F64.ofInt 1)))
      = .ret (New (Value.bool true), none) ∧
    Eq (New (Value.float64 F64.nan)) (New (Value.float64 (F64.ofInt 1)))
      ≠ toleranceRule F64.nan (F64.ofInt 1) := by
  have h1 : F64.sub F64.nan b = F64.nan := by cases b <;> rfl
  have h2 : F64.sub b F64.nan = F64.nan := by cases b <;> rfl
  refine ⟨?_, ?_, ?_, ?_, by decide, by decide, by decide⟩
  · rw [Eq_float64_float64, h1]; rfl
  · rw [Eq_float64_float64, h2]; rfl
  · rw [toleranceRule, h1]; rfl
  · rw [toleranceRule, h2]; rfl

/-- Without a float tag and without a float payload on either side, `Eq` is
the structural comparison of the two cells. -/
theorem Eq_structural (e x : Element)
    (het : floatKind e.Typ = false) (hxt : floatKind x.Typ = false)
    (hev : e.Val.isFloat = false) (hxv : x.Val.isFloat = false) :
    Eq e x = .ret (New (Value.bool (decide (e.Typ = x.Typ ∧ e.Val = x.Val))), none) := by
  obtain ⟨v, t⟩ := e
  obtain ⟨w, u⟩ := x
  have ht1 : t ≠ Kind.Float32 := by rintro rfl; simp [floatKind] at het
  have ht2 : t ≠ Kind.Float64 := by rintro rfl; simp [floatKind] at het
  have hu1 : u ≠ Kind.Float32 := by rintro rfl; simp [floatKind] at hxt
  have hu2 : u ≠ Kind.Float64 := by rintro rfl; simp [floatKind] at hxt
  by_cases htu : t = u <;>
  cases v <;> cases w <;>
    first
    | (simp [Value.isFloat] at hev; done)
    | (simp [Value.isFloat] at hxv; done)
    | (simp [Eq, DeepEqual, Value.deepEqual, ht1, ht2, hu1, hu2, htu]; done)
    | (simp [Eq, DeepEqual, Value.deepEqual, ht1, ht2, hu1, hu2, htu]
       split <;> simp_all)

theorem floatKind_kind (v : Value) : floatKind v.kind = v.isFloat := by
  cases v <;> rfl

theorem sameValue_eq_decide (v w : Value) (h : v.isFloat = false ∨ w.isFloat = false) :
    sameValue v w = decide (v = w) := by
  cases v <;> cases w <;> first | rfl | simp [Value.isFloat] at h

theorem Value.deepEqual_eq_sameValue (v w : Value) : Value.deepEqual v w = sameValue v w := by
  cases v <;> cases w <;> simp [Value.deepEqual, sameValue]

/-- Without a float kind tag on either side `Eq` is `reflect.DeepEqual` on the
two cells, whatever their payloads. -/
theorem Eq_of_no_float_tag (e x : Element)
    (het : floatKind e.Typ = false) (hxt : floatKind x.Typ = false) :
    Eq e x = .ret (New (Value.bool (DeepEqual e x)), none) := by
  obtain ⟨v, t⟩ := e
  obtain ⟨w, u⟩ := x
  have hk : ¬ (t = Kind.Float32 ∨ t = Kind.Float64 ∨ u = Kind.Float32 ∨ u = Kind.Float64) := by
    rintro (h | h | h | h) <;> subst h <;> simp [floatKind] at het hxt
  unfold Eq
  simp only [if_neg hk]
  by_cases hn : decide (v = Value.nil) ≠ decide (w = Value.nil)
  · rw [if_pos hn]
    have hd : Value.deepEqual v w = false := by
      cases v <;> cases w <;> first | rfl | simp at hn
    simp [DeepEqual, hd]
  · rw [if_neg hn]
    cases hD : DeepEqual (Element.mk v t) (Element.mk w u) <;> simp

/-- C10: for every two cells neither of which has a float kind tag, whatever
their payloads, `Eq` returns with a nil error the boolean cell true when the
two cells have the same kind tag and the same value, and the boolean cell
false otherwise; where a payload is not a float (as under every kind tag that
is the kind of its payload) the same value is the same payload; an `int8` 5
and an `int32` 5 compare false. -/
theorem C10_Eq_non_float (e x : Element)
    (hef : floatKind e.Typ = false) (hxf : floatKind x.Typ = false) :
    Eq e x = .ret (New (Value.bool (decide (e.Typ = x.Typ) && sameValue e.Val x.Val)), none) ∧
    (e.Val.isFloat = false ∨ x.Val.isFloat = false →
      Eq e x = .ret (New (Value.bool (decide (e.Typ = x.Typ ∧ e.Val = x.Val))), none)) ∧
    Eq (New (Value.int8 5)) (New (Value.int32 5)) = .ret (New (Value.bool false), none) := by
  have h1 : Eq e x
      = .ret (New (Value.bool (decide (e.Typ = x.Typ) && sameValue e.Val x.Val)), none) := by
    rw [Eq_of_no_float_tag e x hef hxf, DeepEqual, Value.deepEqual_eq_sameValue, Bool.and_comm]
  refine ⟨h1, fun h => ?_, by decide⟩
  rw [h1, sameValue_eq_decide _ _ h]
  by_cases ht : e.Typ = x.Typ <;> by_cases hv : e.Val = x.Val <;> simp [ht, hv]

/-- C10 at two cells holding the `int` 5 under different kind tags, one of
them not the kind of its payload: they compare false. -/
theorem C10_Eq_non_float_witness :
    floatKind (Element.mk (Value.int 5) Kind.Int).Typ = false ∧
    floatKind (Element.mk (Value.int 5) Kind.Bool).Typ = false ∧
    ((Element.mk (Value.int 5) Kind.Int).Val.isFloat = false ∨
      (Element.mk (Value.int 5) Kind.Bool).Val.isFloat = false) ∧
    Eq (Element.mk (Value.int 5) Kind.Int) (Element.mk (Value.int 5) Kind.Bool)
      = .ret (New (Value.bool (decide ((Element.mk (Value.int 5) Kind.Int).Typ
            = (Element.mk (Value.int 5) Kind.Bool).Typ)
          && sameValue (Element.mk (Value.int 5) Kind.Int).Val
            (Element.mk (Value.int 5) Kind.Bool).Val)), none) ∧
    Eq (Element.mk (Value.int 5) Kind.Int) (Element.mk (Value.int 5) Kind.Bool)
      = .ret (New (Value.bool (decide ((Element.mk (Value.int 5) Kind.Int).Typ
            = (Element.mk (Value.int 5) Kind.Bool).Typ ∧
          (Element.mk (Value.int 5) Kind.Int).Val
            = (Element.mk (Value.int 5) Kind.Bool).Val))), none) ∧
    Eq (Element.mk (Value.int 5) Kind.Int) (Element.mk (Value.int 5) Kind.Bool)
      = .ret (New (Value.bool false), none) :=
  ⟨by decide, by decide, Or.inl (by decide),
    (C10_Eq_non_float (Element.mk (Value.int 5) Kind.Int) (Element.mk (Value.int 5) Kind.Bool)
      (by decide) (by decide)).1,
    (C10_Eq_non_float (Element.mk (Value.int 5) Kind.Int) (Element.mk (Value.int 5) Kind.Bool)
      (by decide) (by decide)).2.1 (Or.inl (by decide)),
    by decide⟩

/-- C11: two string cells compare, with a nil error, true when the strings
are equal and false when they differ; `"a"` against `"a"` is true and `"a"`
against `"b"` is false. -/
theorem C11_Eq_strings (s t : String) :
    Eq (New (Value.string s)) (New (Value.string t))
      = .ret (New (Value.bool (decide (s = t))), none) ∧
    Eq (New (Value.string "a")) (New (Value.string "a"))
      = .ret (New (Value.bool true), none) ∧
    Eq (New (Value.string "a")) (New (Value.string "b"))
      = .ret (New (Value.bool false), none) := by
  refine ⟨?_, by decide, by decide⟩
  by_cases h : s = t
  · simp [Eq, New_eq, DeepEqual, Value.deepEqual, Value.kind, h]
  · simp [Eq, New_eq, DeepEqual, Value.deepEqual, Value.kind, h]

/-- C12: each named entry point is `Op` with its symbol fixed, as a whole
outcome (cell, error, or panic). -/
theorem C12_entry_points (e x : Element) :
    Add e x = Op e x "+" ∧ Diff e x = Op e x "-" ∧ Prod e x = Op e x "*" ∧
    Quot e x = Op e x "/" ∧ Mod e x = Op e x "%" ∧ Le e x = Op e x "<" ∧
    Leq e x = Op e x "<=" ∧ Ge e x = Op e x ">" ∧ Geq e x = Op e x ">=" :=
  ⟨rfl, rfl, rfl, rfl, rfl, rfl, rfl, rfl, rfl⟩

/-- C14: with a left operand holding a boolean, a string or nil and a symbol
other than `==`, `Op` returns the empty cell and the coercion error of the
left operand whatever the right operand and the symbol are: neither the right
coercion (not even its `int8` panic) nor the table lookup is reached. -/
theorem C14_Op_left_first (e x : Element) (op : String)
    (he : e.Val.nonNumeric = true) (hop : op ≠ "==") :
    Op e x op = .ret (emptyElement, some arithmeticError) := by
  simp [Op, AsFloat_nonNumeric e he, Outcome.bind, hop]

/-- C14 at a string on the left, an `int8` on the right and a symbol that is
not in the table. -/
theorem C14_Op_left_first_witness :
    (New (Value.string "x")).Val.nonNumeric = true ∧ "?" ≠ "==" ∧
    Op (New (Value.string "x")) (New (Value.int8 1)) "?"
      = .ret (emptyElement, some arithmeticError) :=
  ⟨by decide, by decide,
    C14_Op_left_first (New (Value.string "x")) (New (Value.int8 1)) "?" (by decide) (by decide)⟩

/-! ## What `Op` and `Eq` return, and the symmetry of `Eq` -/

theorem Ops_entry_ret (g : F64 → F64 → Value) (a b c : Element) (err : Option String)
    (h : Ops.entry g a b = .ret (c, err)) :
    ∃ x y, a.Val = Value.float64 x ∧ b.Val = Value.float64 y ∧ c = New (g x y) ∧ err = none := by
  obtain ⟨va, ta⟩ := a
  obtain ⟨vb, tb⟩ := b
  cases va <;> cases vb <;> simp [Ops.entry, assertFloat64, Outcome.bind] at h ⊢
  obtain ⟨h1, h2⟩ := h
  exact ⟨h1.symm, h2.symm⟩

theorem Ops_some (op : String) (f : Element → Element → Result) (h : Ops op = some f) :
    ∃ g, f = Ops.entry g ∧
      ((∀ x y, ∃ z, g x y = Value.float64 z) ∨ (∀ x y, ∃ b, g x y = Value.bool b)) := by
  unfold Ops at h
  split at h <;> first
    | (cases h; exact ⟨_, rfl, Or.inl fun x y => ⟨_, rfl⟩⟩)
    | (cases h; exact ⟨_, rfl, Or.inr fun x y => ⟨_, rfl⟩⟩)
    | simp at h

theorem Outcome.bind_eq_ret {α β : Type} (o : Outcome α) (k : α → Outcome β) (b : β)
    (h : o.bind k = .ret b) : ∃ a, o = .ret a ∧ k a = .ret b := by
  cases o with
  | ret a => exact ⟨a, rfl, h⟩
  | panic m => simp [Outcome.bind] at h

theorem Op_ret (e x : Element) (op : String) (c : Element) (err : Option String)
    (h : Op e x op = .ret (c, err)) :
    (c = emptyElement ∧ err = some arithmeticError) ∨
    (err = none ∧ ∃ f g a b, Ops op = some f ∧ f = Ops.entry g ∧ c = New (g a b)) := by
  unfold Op at h
  obtain ⟨p, hp, h⟩ := Outcome.bind_eq_ret _ _ _ h
  have hperr : p.2 = none ∨ p.2 = some arithmeticError := by
    rcases Value.trichotomy e.Val with hv | hv | ⟨i, hv⟩
    · rw [AsFloat_coercible e hv] at hp; cases hp; exact Or.inl rfl
    · rw [AsFloat_nonNumeric e hv] at hp; cases hp; exact Or.inr rfl
    · obtain ⟨v, t⟩ := e; subst hv; rw [AsFloat_int8] at hp; cases hp
  split_ifs at h with h1
  · cases h
    rcases hperr with hn | hs
    · exact absurd hn h1.1
    · exact Or.inl ⟨rfl, hs⟩
  · obtain ⟨q, hq, h⟩ := Outcome.bind_eq_ret _ _ _ h
    have hqerr : q.2 = none ∨ q.2 = some arithmeticError := by
      rcases Value.trichotomy x.Val with hv | hv | ⟨i, hv⟩
      · rw [AsFloat_coercible x hv] at hq; cases hq; exact Or.inl rfl
      · rw [AsFloat_nonNumeric x hv] at hq; cases hq; exact Or.inr rfl
      · obtain ⟨v, t⟩ := x; subst hv; rw [AsFloat_int8] at hq; cases hq
    split_ifs at h with h2
    · cases h
      rcases hqerr with hn | hs
      · exact absurd hn h2.1
      · exact Or.inl ⟨rfl, hs⟩
    · cases hO : Ops op with
      | none => simp [hO] at h
      | some f =>
        simp only [hO] at h
        obtain ⟨g, hg, _⟩ := Ops_some op f hO
        rw [hg] at h
        obtain ⟨a, b, _, _, hc, herr⟩ := Ops_entry_ret g _ _ _ _ h
        exact Or.inr ⟨herr, f, g, a, b, rfl, hg, hc⟩

theorem Eq_ret (e x c : Element) (err : Option String) (h : Eq e x = .ret (c, err)) :
    ∃ b, c = New (Value.bool b) ∧ err = none := by
  unfold Eq at h
  simp only at h
  split_ifs at h with h1 h2 h3
  · cases h; exact ⟨false, rfl, rfl⟩
  · obtain ⟨p, _, h⟩ := Outcome.bind_eq_ret _ _ _ h
    obtain ⟨q, _, h⟩ := Outcome.bind_eq_ret _ _ _ h
    obtain ⟨a, _, h⟩ := Outcome.bind_eq_ret _ _ _ h
    obtain ⟨b, _, h⟩ := Outcome.bind_eq_ret _ _ _ h
    split_ifs at h
    · cases h; exact ⟨false, rfl, rfl⟩
    · cases h; exact ⟨true, rfl, rfl⟩
  · cases h; exact ⟨false, rfl, rfl⟩
  · cases h; exact ⟨true, rfl, rfl⟩

theorem wellTagged_New (v : Value) : wellTagged (New v) := by
  rw [New_eq]
  cases v <;> simp [wellTagged, Value.kind]

theorem F64.abs_round (s : Bool) (n d : Nat) : F64.abs (F64.round s n d) = F64.round false n d := by
  unfold F64.round
  simp only
  split_ifs <;> rfl

theorem F64.abs_ofDyadic (s : Bool) (n : Nat) (g : Int) :
    F64.abs (F64.ofDyadic s n g) = F64.ofDyadic false n g := by
  unfold F64.ofDyadic
  split_ifs <;> exact F64.abs_round _ _ _

theorem F64.abs_sub_comm (a b : F64) : F64.abs (F64.sub a b) = F64.abs (F64.sub b a) := by
  cases a with
  | nan => cases b <;> rfl
  | inf s =>
    cases b with
    | nan => rfl
    | inf t => cases s <;> cases t <;> rfl
    | fin t k f => rfl
  | fin s m e =>
    cases b with
    | nan => rfl
    | inf t => rfl
    | fin t k f =>
      simp only [F64.sub, F64.neg, F64.add, F64.signed_not, min_comm f e]
      by_cases hc : F64.signed s (m * 2 ^ (e - min e f).toNat)
          + -F64.signed t (k * 2 ^ (f - min e f).toNat) = 0
      · have hc2 : F64.signed t (k * 2 ^ (f - min e f).toNat)
            + -F64.signed s (m * 2 ^ (e - min e f).toNat) = 0 := by omega
        rw [if_pos hc, if_pos hc2]; rfl
      · have hc2 : ¬ F64.signed t (k * 2 ^ (f - min e f).toNat)
            + -F64.signed s (m * 2 ^ (e - min e f).toNat) = 0 := by omega
        rw [if_neg hc, if_neg hc2, F64.abs_ofDyadic, F64.abs_ofDyadic]
        congr 1
        omega

theorem F64.eq_comm (a b : F64) : F64.eq a b = F64.eq b a := by
  cases a with
  | nan => cases b <;> rfl
  | inf s =>
    cases b with
    | nan => rfl
    | inf t => cases s <;> cases t <;> rfl
    | fin t k f => rfl
  | fin s m e =>
    cases b with
    | nan => rfl
    | inf t => rfl
    | fin t k f =>
      simp only [F64.eq, min_comm f e]
      exact decide_eq_decide.mpr ⟨fun h => h.symm, fun h => h.symm⟩

theorem wellTagged_eq_New (c : Element) (h : wellTagged c) : c = New c.Val := by
  obtain ⟨v, t⟩ := c
  rw [New_eq]
  by_cases hv : v = Value.nil
  · subst hv
    have ht : t = Kind.Invalid := h.2.mpr rfl
    subst ht; rfl
  · have ht : t = v.kind := h.1 hv
    subst ht; rfl

theorem Value.deepEqual_comm (v w : Value) : Value.deepEqual v w = Value.deepEqual w v := by
  cases v <;> cases w <;> simp only [Value.deepEqual] <;>
    first
    | exact F64.eq_comm _ _
    | exact decide_eq_decide.mpr ⟨fun h => h.symm, fun h => h.symm⟩

theorem DeepEqual_comm (e x : Element) : DeepEqual e x = DeepEqual x e := by
  unfold DeepEqual
  rw [Value.deepEqual_comm e.Val x.Val]
  congr 1
  exact decide_eq_decide.mpr ⟨fun h => h.symm, fun h => h.symm⟩

/-- The float branch of `Eq` does not depend on the order of the two cells
when one of them holds a float. -/
theorem floatBranch_comm (v w : Value) (h : v.isFloat = true ∨ w.isFloat = true) :
    ((AsFloat (New v)).bind fun p =>
        (AsFloat (New w)).bind fun q =>
          (assertFloat64 p.1.Val).bind fun a =>
            (assertFloat64 q.1.Val).bind fun b =>
              if F64.gt (F64.abs (F64.sub a b)) F64.tol then
                (Outcome.ret (New (Value.bool false), none) : Result)
              else .ret (New (Value.bool true), none))
      = ((AsFloat (New w)).bind fun p =>
        (AsFloat (New v)).bind fun q =>
          (assertFloat64 p.1.Val).bind fun a =>
            (assertFloat64 q.1.Val).bind fun b =>
              if F64.gt (F64.abs (F64.sub a b)) F64.tol then
                (Outcome.ret (New (Value.bool false), none) : Result)
              else .ret (New (Value.bool true), none)) := by
  rw [New_eq, New_eq]
  rcases h with h | h
  · cases v <;> simp [Value.isFloat] at h <;> rename_i f <;> cases w <;>
      simp only [AsFloat, AsFloat.store, assertUint8, assertUint16, assertInt16, assertUint32,
        assertInt32, assertUint64, assertInt64, assertInt, assertFloat32, assertFloat64,
        Outcome.bind, F64.abs_sub_comm f]
  · cases w <;> simp [Value.isFloat] at h <;> rename_i f <;> cases v <;>
      simp only [AsFloat, AsFloat.store, assertUint8, assertUint16, assertInt16, assertUint32,
        assertInt32, assertUint64, assertInt64, assertInt, assertFloat32, assertFloat64,
        Outcome.bind, F64.abs_sub_comm f]

theorem Eq_New_comm (v w : Value) : Eq (New v) (New w) = Eq (New w) (New v) := by
  have hD : DeepEqual (New w) (New v) = DeepEqual (New v) (New w) := DeepEqual_comm _ _
  unfold Eq
  simp only [hD]
  by_cases hn : decide ((New v).Val = Value.nil) ≠ decide ((New w).Val = Value.nil)
  · rw [if_pos hn, if_pos (Ne.symm hn)]
  · rw [if_neg hn, if_neg (fun h => hn (Ne.symm h))]
    by_cases hd : (!DeepEqual (New v) (New w)) = true
    · rw [if_pos hd, if_pos hd]
      by_cases hk : (New v).Typ = Kind.Float32 ∨ (New v).Typ = Kind.Float64 ∨
          (New w).Typ = Kind.Float32 ∨ (New w).Typ = Kind.Float64
      · have hk2 : (New w).Typ = Kind.Float32 ∨ (New w).Typ = Kind.Float64 ∨
            (New v).Typ = Kind.Float32 ∨ (New v).Typ = Kind.Float64 := by tauto
        rw [if_pos hk, if_pos hk2]
        apply floatBranch_comm
        rw [New_eq, New_eq] at hk
        rcases hk with h | h | h | h
        · left; (cases v <;> simp [Value.kind] at h); rfl
        · left; (cases v <;> simp [Value.kind] at h); rfl
        · right; (cases w <;> simp [Value.kind] at h); rfl
        · right; (cases w <;> simp [Value.kind] at h); rfl
      · have hk2 : ¬ ((New w).Typ = Kind.Float32 ∨ (New w).Typ = Kind.Float64 ∨
            (New v).Typ = Kind.Float32 ∨ (New v).Typ = Kind.Float64) := by tauto
        rw [if_neg hk, if_neg hk2]
    · rw [if_neg hd, if_neg hd]

/-- With two operands of the ten numeric types that `AsFloat` converts, `Op`
is the table entry applied to the two converted cells. -/
theorem Op_coercible (e x : Element) (op : String)
    (he : e.Val.coercible = true) (hx : x.Val.coercible = true) :
    Op e x op =
      match Ops op with
      | some f => f (Element.mk (Value.float64 e.Val.toF64) Kind.Float64)
          (Element.mk (Value.float64 x.Val.toF64) Kind.Float64)
      | none => .panic nilCallPanic := by
  simp [Op, AsFloat_coercible e he, AsFloat_coercible x hx, Outcome.bind]

/-- For two operands of the ten numeric types that `AsFloat` converts, the
five arithmetic symbols give a `Float64` cell and the four ordering symbols a
`Bool` cell, with a nil error. -/
theorem Op_coercible_results (e x : Element)
    (he : e.Val.coercible = true) (hx : x.Val.coercible = true) :
    Op e x "+" = .ret (New (Value.float64 (F64.add e.Val.toF64 x.Val.toF64)), none) ∧
    Op e x "-" = .ret (New (Value.float64 (F64.sub e.Val.toF64 x.Val.toF64)), none) ∧
    Op e x "*" = .ret (New (Value.float64 (F64.mul e.Val.toF64 x.Val.toF64)), none) ∧
    Op e x "/" = .ret (New (Value.float64 (F64.div e.Val.toF64 x.Val.toF64)), none) ∧
    Op e x "%" = .ret (New (Value.float64 (F64.mod e.Val.toF64 x.Val.toF64)), none) ∧
    Op e x "<" = .ret (New (Value.bool (F64.lt e.Val.toF64 x.Val.toF64)), none) ∧
    Op e x "<=" = .ret (New (Value.bool (F64.le e.Val.toF64 x.Val.toF64)), none) ∧
    Op e x ">" = .ret (New (Value.bool (F64.gt e.Val.toF64 x.Val.toF64)), none) ∧
    Op e x ">=" = .ret (New (Value.bool (F64.ge e.Val.toF64 x.Val.toF64)), none) := by
  simp only [Op_coercible e x _ he hx]
  exact ⟨rfl, rfl, rfl, rfl, rfl, rfl, rfl, rfl, rfl⟩

/-- C13 (fails): no cell at all comes back from `Op` on two `int8` cells,
whatever the symbol, nor from `Eq` on a string cell against a `float64` cell:
both calls panic. -/
theorem C13_no_cell_returned (i j : Int) (s : String) (f : F64) (op : String) :
    (∀ c err, Op (New (Value.int8 i)) (New (Value.int8 j)) op ≠ .ret (c, err)) ∧
    (∀ c err, Eq (New (Value.string s)) (New (Value.float64 f)) ≠ .ret (c, err)) := by
  have h1 : Op (New (Value.int8 i)) (New (Value.int8 j)) op
      = .panic "interface conversion: interface \x7b\x7d is int8, not uint8" := by
    rw [New_eq]; rfl
  have h2 : Eq (New (Value.string s)) (New (Value.float64 f))
      = .panic "interface conversion: interface \x7b\x7d is string, not float64" := by
    simp only [New_eq]; rfl
  rw [h1, h2]
  exact ⟨fun _ _ h => (by cases h), fun _ _ h => (by cases h)⟩

/-- C15: whenever `Op` returns a non-nil error, the cell returned with it is
the empty cell `New(nil)`: nil payload, `Invalid` kind tag. -/
theorem C15_Op_error_cell (e x : Element) (op : String) (c : Element) (err : String)
    (h : Op e x op = .ret (c, some err)) :
    c = emptyElement ∧ c = New Value.nil ∧ c.Val = Value.nil ∧ c.Typ = Kind.Invalid := by
  rcases Op_ret e x op c (some err) h with ⟨hc, _⟩ | ⟨hn, _⟩
  · subst hc
    exact ⟨rfl, rfl, rfl, rfl⟩
  · cases hn

/-- C15 at a failing right operand: `1.0 < "x"`. -/
theorem C15_Op_error_cell_witness :
    Op (New (Value.float64 (F64.ofInt 1))) (New (Value.string "x")) "<"
        = .ret (New Value.nil, some arithmeticError) ∧
    (New Value.nil = emptyElement ∧ New Value.nil = New Value.nil ∧
      (New Value.nil).Val = Value.nil ∧ (New Value.nil).Typ = Kind.Invalid) :=
  ⟨by decide,
    C15_Op_error_cell (New (Value.float64 (F64.ofInt 1))) (New (Value.string "x")) "<"
      (New Value.nil) arithmeticError (by decide)⟩

/-- C16: the kind-tag invariant.  `New` builds well-tagged cells; the cell
`AsFloat` leaves behind is well tagged when the one it was given is, whether
the error is nil or not; every cell `Op` returns and every cell `Eq` returns
is well tagged. -/
theorem C16_well_tagged :
    (∀ v, wellTagged (New v)) ∧
    (∀ e c err, wellTagged e → AsFloat e = .ret (c, err) → wellTagged c) ∧
    (∀ e x op c err, Op e x op = .ret (c, err) → wellTagged c) ∧
    (∀ e x c err, Eq e x = .ret (c, err) → wellTagged c) := by
  refine ⟨wellTagged_New, ?_, ?_, ?_⟩
  · intro e c err he h
    rcases Value.trichotomy e.Val with hv | hv | ⟨i, hv⟩
    · rw [AsFloat_coercible e hv] at h
      cases h
      exact wellTagged_New (Value.float64 e.Val.toF64)
    · rw [AsFloat_nonNumeric e hv] at h
      cases h
      exact he
    · obtain ⟨v, t⟩ := e
      subst hv
      rw [AsFloat_int8] at h
      cases h
  · intro e x op c err h
    rcases Op_ret e x op c err h with ⟨hc, _⟩ | ⟨_, _, g, a, b, _, _, hc⟩
    · subst hc
      exact wellTagged_New Value.nil
    · subst hc
      exact wellTagged_New _
  · intro e x c err h
    obtain ⟨b, hc, _⟩ := Eq_ret e x c err h
    subst hc
    exact wellTagged_New _

/-- C16 at the `int` cell 2, the string cell `"x"` and the absent cell. -/
theorem C16_well_tagged_witness :
    wellTagged (New (Value.int 2)) ∧ wellTagged (New Value.nil) ∧
    wellTagged (Element.mk (Value.float64 (F64.ofInt 2)) Kind.Float64) ∧
    wellTagged (New (Value.string "x")) ∧
    wellTagged (New (Value.float64 (F64.ofInt 4))) ∧
    wellTagged emptyElement ∧
    wellTagged (New (Value.bool true)) :=
  ⟨C16_well_tagged.1 _, C16_well_tagged.1 _,
    C16_well_tagged.2.1 (New (Value.int 2)) _ none (C16_well_tagged.1 _) (by decide),
    C16_well_tagged.2.1 (New (Value.string "x")) _ (some arithmeticError)
      (C16_well_tagged.1 _) (by decide),
    C16_well_tagged.2.2.1 (New (Value.int 2)) (New (Value.int 2)) "+" _ none (by decide),
    C16_well_tagged.2.2.1 (New (Value.string "x")) (New (Value.int 2)) "+" _
      (some arithmeticError) (by decide),
    C16_well_tagged.2.2.2 (New (Value.int 2)) (New (Value.float64 (F64.ofInt 2))) _ none
      (by decide)⟩

/-- Where the operands are converted without a panic, `Add`, `Diff` and
`Prod` are exact on integers: if the two cells hold the integers `a` and `b`
and `a + b`, `a - b`, `a * b` have magnitude at most `2^53`, the three results
are `Float64` cells holding exactly `a + b`, `a - b` and `a * b`. -/
theorem Add_Diff_Prod_exact (v w : Value) (hv : v.coercible = true) (hw : w.coercible = true)
    (a b : Int) (ha : v.toF64.toRat = some (a : ℚ)) (hb : w.toF64.toRat = some (b : ℚ))
    (hs : (a + b).natAbs ≤ 2 ^ 53) (hd : (a - b).natAbs ≤ 2 ^ 53)
    (hp : (a * b).natAbs ≤ 2 ^ 53) :
    ∃ fs fd fp,
      Add (New v) (New w) = .ret (New (Value.float64 fs), none) ∧
      fs.toRat = some ((a + b : Int) : ℚ) ∧
      Diff (New v) (New w) = .ret (New (Value.float64 fd), none) ∧
      fd.toRat = some ((a - b : Int) : ℚ) ∧
      Prod (New v) (New w) = .ret (New (Value.float64 fp), none) ∧
      fp.toRat = some ((a * b : Int) : ℚ) := by
  have hv2 : (New v).Val.coercible = true := by rw [New_eq]; exact hv
  have hw2 : (New w).Val.coercible = true := by rw [New_eq]; exact hw
  obtain ⟨hadd, hsub, hmul, _⟩ := Op_coercible_results (New v) (New w) hv2 hw2
  have hvv : (New v).Val = v := by rw [New_eq]
  have hww : (New w).Val = w := by rw [New_eq]
  rw [hvv, hww] at hadd hsub hmul
  refine ⟨_, _, _, hadd, ?_, hsub, ?_, hmul, ?_⟩
  · obtain ⟨R, g, hR, hg, hval, hov⟩ := F64.int_rep _ hs
    rw [F64.natAbs_cast_rat] at hval hov
    push_cast at hval hov ⊢
    exact F64.add_exact _ _ _ _ ha hb R g hR hg hval hov
  · obtain ⟨R, g, hR, hg, hval, hov⟩ := F64.int_rep _ hd
    rw [F64.natAbs_cast_rat] at hval hov
    push_cast at hval hov ⊢
    exact F64.sub_exact _ _ _ _ ha hb R g hR hg hval hov
  · obtain ⟨R, g, hR, hg, hval, hov⟩ := F64.int_rep _ hp
    rw [F64.natAbs_cast_rat] at hval hov
    push_cast at hval hov ⊢
    exact F64.mul_exact _ _ _ _ ha hb R g hR hg hval hov

/-- Where the operands are converted without a panic, `Mod` is the exact
truncating remainder: if the two cells hold the finite values `a` and
`b ≠ 0`, the result is the `Float64` cell holding `r = a - b * q` for an
integer `q`, with `|r| < |b|` and `r` zero or of the sign of `a`. -/
theorem Mod_remainder_exact (v w : Value) (hv : v.coercible = true) (hw : w.coercible = true)
    (a b : ℚ) (ha : v.toF64.toRat = some a) (hb : w.toF64.toRat = some b)
    (hvb : v.toF64.bounded) (hwb : w.toF64.bounded) (hb0 : b ≠ 0) :
    ∃ f, ∃ r : ℚ, ∃ q : ℤ,
      Mod (New v) (New w) = .ret (New (Value.float64 f), none) ∧ f.toRat = some r ∧
      r = a - b * q ∧ |r| < |b| ∧ (r = 0 ∨ (0 < r ∧ 0 < a) ∨ (r < 0 ∧ a < 0)) := by
  have hv2 : (New v).Val.coercible = true := by rw [New_eq]; exact hv
  have hw2 : (New w).Val.coercible = true := by rw [New_eq]; exact hw
  obtain ⟨_, _, _, _, hmod, _⟩ := Op_coercible_results (New v) (New w) hv2 hw2
  have hvv : (New v).Val = v := by rw [New_eq]
  have hww : (New w).Val = w := by rw [New_eq]
  rw [hvv, hww] at hmod
  obtain ⟨r, q, h1, h2, h3, h4⟩ := F64.mod_exact _ _ a b ha hb hvb hwb hb0
  exact ⟨_, r, q, hmod, h1, h2, h3, h4⟩

/-- The examples of the specification on cells that are converted without a
panic: `2 + 3 = 5.0`, `5.0 - 2.0 = 3.0`, `1.0 / 0.0 = +Inf`, `5.5 mod 2.0 = 1.5`,
`-7 mod 3 = -1.0`. -/
theorem arithmetic_examples :
    Add (New (Value.int 2)) (New (Value.int 3))
      = .ret (New (Value.float64 (F64.ofInt 5)), none) ∧
    Diff (New (Value.float64 (F64.ofInt 5))) (New (Value.float64 (F64.ofInt 2)))
      = .ret (New (Value.float64 (F64.ofInt 3)), none) ∧
    Quot (New (Value.float64 (F64.ofInt 1))) (New (Value.float64 (F64.ofInt 0)))
      = .ret (New (Value.float64 (F64.inf false)), none) ∧
    Mod (New (Value.float64 (F64.round false 11 2))) (New (Value.float64 (F64.ofInt 2)))
      = .ret (New (Value.float64 (F64.round false 3 2)), none) ∧
    Mod (New (Value.int (-7))) (New (Value.int 3))
      = .ret (New (Value.float64 (F64.ofInt (-1))), none) := by
  decide

/-- C17 (fails at `int8`): on two `int8` cells, `Add`, `Diff` and `Prod`
panic for all values, `2` and `3` included, instead of returning the sum, the
difference and the product. -/
theorem C17_arithmetic_int8_panics (i j : Int) :
    Add (New (Value.int8 i)) (New (Value.int8 j))
      = .panic "interface conversion: interface \x7b\x7d is int8, not uint8" ∧
    Diff (New (Value.int8 i)) (New (Value.int8 j))
      = .panic "interface conversion: interface \x7b\x7d is int8, not uint8" ∧
    Prod (New (Value.int8 i)) (New (Value.int8 j))
      = .panic "interface conversion: interface \x7b\x7d is int8, not uint8" ∧
    Add (New (Value.int8 2)) (New (Value.int8 3))
      = .panic "interface conversion: interface \x7b\x7d is int8, not uint8" := by
  simp only [New_eq]
  exact ⟨rfl, rfl, rfl, rfl⟩

/-- C18 (fails at `int8`): on an `int8` dividend, or on a numeric dividend
and an `int8` divisor, `Mod` panics instead of returning the remainder;
`Mod(int8(-7), int8(3))` does. -/
theorem C18_Mod_int8_panics (i : Int) (x : Element) (f : F64) :
    Mod (New (Value.int8 i)) x
      = .panic "interface conversion: interface \x7b\x7d is int8, not uint8" ∧
    Mod (New (Value.float64 f)) (New (Value.int8 i))
      = .panic "interface conversion: interface \x7b\x7d is int8, not uint8" ∧
    Mod (New (Value.int8 (-7))) (New (Value.int8 3))
      = .panic "interface conversion: interface \x7b\x7d is int8, not uint8" := by
  simp only [New_eq]
  exact ⟨rfl, rfl, rfl⟩

/-- C19: on well-tagged cells `Eq` is symmetric: the two orders have the same
outcome, the same returned cell and error or the same panic. -/
theorem C19_Eq_symmetric (e x : Element) (he : wellTagged e) (hx : wellTagged x) :
    Eq e x = Eq x e := by
  rw [wellTagged_eq_New e he, wellTagged_eq_New x hx]
  exact Eq_New_comm _ _

/-- C19 at the string cell `"a"` against the float cell `1.0`: both orders
panic alike. -/
theorem C19_Eq_symmetric_witness :
    wellTagged (New (Value.string "a")) ∧ wellTagged (New (Value.float64 (F64.ofInt 1))) ∧
    Eq (New (Value.string "a")) (New (Value.float64 (F64.ofInt 1)))
      = Eq (New (Value.float64 (F64.ofInt 1))) (New (Value.string "a")) :=
  ⟨wellTagged_New _, wellTagged_New _,
    C19_Eq_symmetric (New (Value.string "a")) (New (Value.float64 (F64.ofInt 1)))
      (wellTagged_New _) (wellTagged_New _)⟩

/-- C20: `Eq` is not transitive.  The `int` cell 1 and the `int32` cell 1
both compare true with the `float64` cell `1.0`, and false with each other. -/
theorem C20_Eq_not_transitive :
    Eq (New (Value.int 1)) (New (Value.float64 (F64.ofInt 1)))
      = .ret (New (Value.bool true), none) ∧
    Eq (New (Value.float64 (F64.ofInt 1))) (New (Value.int32 1))
      = .ret (New (Value.bool true), none) ∧
    Eq (New (Value.int 1)) (New (Value.int32 1))
      = .ret (New (Value.bool false), none) := by
  decide

end element
